import Mathlib

/-!
Quest runner (`src/runner/quest-runner.js`)

A shallow embedding of the decision logic of the quest runner: the transaction
executor `tryTransaction`, the stamina manager `getHeroesWithGoodStamina`, the
quest lifecycle controller (`getQuestsToStart`, `startQuest`, `startQuestBatch`,
`completeQuest`) and the body of one iteration of `checkForQuests`.

Conventions of the embedding.

* Actor (hero) identifiers, stamina, XP, levels and timestamps are natural numbers
  (`Number(...)` of the chain values). A JavaScript value that is either a number or
  `undefined` (an out-of-range array read) is an `Option Nat`.
* Every call that leaves the process (chain reads, the metadata HTTP fetch, the
  submission and confirmation of a transaction) takes its answer from an explicit
  oracle argument, so that each function is a pure function of its inputs and of
  the answers it receives.
* An `async` function either returns, throws to its caller, or ends the process
  (`process.exit()`): this is the type `Outcome`. Effectful functions return the
  list of transactions whose factory they invoked (in order) together with their
  outcome.
-/

namespace QuestRunner

/-! ## Outcomes, transactions, configuration -/

/-- How the call of an `async` function ends: the promise is fulfilled with a value,
it is rejected (the exception propagates to the caller), or `process.exit()` was
called while it ran. -/
inductive Outcome (α : Type) where
  | returned (a : α)
  | threw
  | exited
  deriving DecidableEq, Repr

/-- The receipt of a mined transaction; `status` is the field inspected by
`tryTransaction`. -/
structure Receipt where
  status : Nat
  deriving DecidableEq, Repr

/-- What happens to the transaction handed to `tryTransaction`: `await transaction()`
rejects, `await tx.wait()` rejects, the 60 s timer fires before the wait is over, or
the wait yields a receipt. -/
inductive TxRun where
  | submitThrows
  | waitThrows
  | timedOut
  | mined (receipt : Receipt)
  deriving DecidableEq, Repr

/-- A state-changing contract call, recorded when its factory is invoked. -/
inductive Tx where
  | startQuest (questingGroup : List Nat) (address : String) (attempts : Nat) (level : Nat)
  | completeQuest (heroId : Option Nat)
  | consumeItem (itemAddress : String) (heroID : Option Nat)
  deriving DecidableEq, Repr

/-- One entry of `config.quests`. -/
structure QuestDefinition where
  name : String
  contractAddress : String
  level : Nat
  professionHeroes : List Nat
  deriving DecidableEq, Repr

/-- The fields of `config.json` read by the decision logic. -/
structure Config where
  quests : List QuestDefinition
  maxQuestGroupSize : Nat
  consumeStaminaVialIfMinStamina : Nat
  questAttempts : Nat
  deriving Repr

/-- An element of the array returned by `getAccountActiveQuests`. -/
structure ActiveQuest where
  heroes : List Nat
  completeAtTime : Nat
  deriving DecidableEq, Repr

/-- The record pushed onto `questsToStart` by `getQuestsToStart`. -/
structure QuestRequest where
  name : String
  address : String
  professional : Bool
  heroes : List Nat
  level : Nat
  deriving DecidableEq, Repr

/-! ## The XP table and the level check -/

/-- The table `xplimits` (lines 15-18). -/
def xplimits : List Nat :=
  [0, 2000, 3000, 4000, 5000, 6000, 8000, 10000, 12000, 16000, 20000, 24000,
   28000, 32000, 36000, 40000, 45000, 50000, 55000, 60000, 65000, 70000]

/-- The condition of the `if` at lines 156-159,
`Number(xp) >= xplimits[level] - 250`. An index outside the table reads `undefined`,
`undefined - 250` is `NaN`, and every comparison with `NaN` is false. Inside the
table the subtraction is the signed one. -/
def levelCondition (xp level : Nat) : Bool :=
  match xplimits[level]? with
  | none => false
  | some limit => decide ((limit : Int) - 250 ≤ (xp : Int))

/-! ## Transaction executor -/

/-- The `try` block of `tryTransaction` (lines 392-399). -/
def tryTransactionBody : TxRun → Outcome Receipt
  | .submitThrows => .threw
  | .waitThrows => .threw
  | .timedOut => .exited
  | .mined receipt => if receipt.status ≠ 1 then .threw else .returned receipt

/-- The function `tryTransaction` (lines 385-406): whatever the `try` block throws is
caught, and the handler calls `process.exit()` (the `throw err` after it is never
reached). The timer callback also calls `process.exit()`. -/
def tryTransaction (run : TxRun) : Outcome Receipt :=
  match tryTransactionBody run with
  | .returned receipt => .returned receipt
  | .threw => .exited
  | .exited => .exited

/-! ## Stamina manager -/

/-- The oracle answering the calls made by a wrapper around one transaction
(`consumeItem`, `startQuestBatch`, `completeQuest`): whether the metadata fetch
`getHeroMetaData` made before the `try` block resolves, and what happens to the
transaction. -/
structure CallEnv where
  metaData : Bool
  tx : TxRun
  deriving DecidableEq, Repr

/-- The item address passed to `consumeItem` at line 256. -/
def staminaVial : String := "0x242078edFDca25ef2A497C8D9f256Fd641472E5F"

/-- The function `consumeItem` (lines 425-441). The metadata fetch is outside the
`try` block, so its failure propagates; the `catch` around `tryTransaction` only
warns. -/
def consumeItem (env : CallEnv) (itemAddress : String) (heroID : Option Nat) :
    List Tx × Outcome Unit :=
  if env.metaData = false then ([], .threw)
  else
    match tryTransaction env.tx with
    | .returned _ => ([.consumeItem itemAddress heroID], .returned ())
    | .threw => ([.consumeItem itemAddress heroID], .returned ())
    | .exited => ([.consumeItem itemAddress heroID], .exited)

/-- The call `Promise.all(promises)`: the list of the values when every promise is
fulfilled (`some`), a rejection as soon as one is rejected (`none`). -/
def promiseAll {α : Type} : List (Option α) → Option (List α)
  | [] => some []
  | none :: _ => none
  | some a :: rest =>
    match promiseAll rest with
    | none => none
    | some values => some (a :: values)

/-- The call `bluebird.map(values, mapper)`, from position `index` on. The mappers are
started in index order; here each one runs to its end before the next, which is one of
the interleavings the event loop admits (when no call fails, every interleaving issues
the same transactions and yields the same list). A rejected mapper rejects the whole
map but does not stop the mappers already started; `process.exit()` stops
everything. -/
def bluebirdMap {α β : Type} (mapper : α → Nat → List Tx × Outcome β) :
    Nat → List α → List Tx × Outcome (List β)
  | _, [] => ([], .returned [])
  | index, value :: rest =>
    match mapper value index with
    | (t, .exited) => (t, .exited)
    | (t, .threw) =>
      match bluebirdMap mapper (index + 1) rest with
      | (t2, .exited) => (t ++ t2, .exited)
      | (t2, _) => (t ++ t2, .threw)
    | (t, .returned b) =>
      match bluebirdMap mapper (index + 1) rest with
      | (t2, .returned bs) => (t ++ t2, .returned (b :: bs))
      | (t2, .threw) => (t ++ t2, .threw)
      | (t2, .exited) => (t ++ t2, .exited)

/-- The JavaScript truthiness `!!h` of a value that is a number or `undefined`. -/
def truthy : Option Nat → Bool
  | none => false
  | some h => decide (h ≠ 0)

/-- The mapper passed to `bluebird.map` at lines 246-263. -/
def staminaMapper (minStamina : Nat) (heroes : List Nat) (consumeEnv : Nat → CallEnv)
    (value : Nat) (index : Nat) : List Tx × Outcome (Option Nat) :=
  let stamina := value
  if stamina ≥ minStamina then ([], .returned heroes[index]?)
  else
    match consumeItem (consumeEnv index) staminaVial heroes[index]? with
    | (t, .returned _) => (t, .returned heroes[index]?)
    | (t, .threw) => (t, .threw)
    | (t, .exited) => (t, .exited)

/-- The function `getHeroesWithGoodStamina` (lines 232-273). `getCurrentStamina hero`
is the answer of the stamina read for `hero` (`none`: the read is rejected) and
`consumeEnv index` answers the calls of the `consumeItem` made for position `index` of
the filtered list. -/
def getHeroesWithGoodStamina (config : Config) (getCurrentStamina : Nat → Option Nat)
    (consumeEnv : Nat → CallEnv) (questingHeroes : List Nat) (quest : QuestDefinition)
    (_professional : Bool) : List Tx × Outcome (List Nat) :=
  let minStamina := config.consumeStaminaVialIfMinStamina
  let heroes := quest.professionHeroes.filter (fun h => !questingHeroes.contains h)
  match promiseAll (heroes.map (fun hero => getCurrentStamina hero)) with
  | none => ([], .threw)
  | some results =>
    match bluebirdMap (staminaMapper minStamina heroes consumeEnv) 0 results with
    | (t, .returned heroesWithGoodStaminaRaw) =>
      let heroesWithGoodStamina := heroesWithGoodStaminaRaw.filter (fun h => truthy h)
      (t, .returned heroesWithGoodStamina.reduceOption)
    | (t, .threw) => (t, .threw)
    | (t, .exited) => (t, .exited)

/-! ## Quest lifecycle controller -/

/-- The loop `for (const quest of config.quests)` of `getQuestsToStart`
(lines 211-227), from the quest definition of position `index` on. -/
def getQuestsToStartLoop (config : Config) (getCurrentStamina : Nat → Nat → Option Nat)
    (consumeEnv : Nat → Nat → CallEnv) (questingHeroes : List Nat) :
    Nat → List QuestDefinition → List Tx × Outcome (List QuestRequest)
  | _, [] => ([], .returned [])
  | index, quest :: rest =>
    if quest.professionHeroes.length > 0 then
      match getHeroesWithGoodStamina config (getCurrentStamina index) (consumeEnv index)
          questingHeroes quest true with
      | (t, .returned readyHeroes) =>
        match getQuestsToStartLoop config getCurrentStamina consumeEnv questingHeroes
            (index + 1) rest with
        | (t2, .returned questsToStart) =>
          (t ++ t2, .returned (
            { name := quest.name, address := quest.contractAddress, professional := true,
              heroes := readyHeroes, level := quest.level } :: questsToStart))
        | (t2, .threw) => (t ++ t2, .threw)
        | (t2, .exited) => (t ++ t2, .exited)
      | (t, .threw) => (t, .threw)
      | (t, .exited) => (t, .exited)
    else
      getQuestsToStartLoop config getCurrentStamina consumeEnv questingHeroes (index + 1) rest

/-- The function `getQuestsToStart` (lines 203-230). The oracles are indexed by the
position of the quest definition in `config.quests`. -/
def getQuestsToStart (config : Config) (getCurrentStamina : Nat → Nat → Option Nat)
    (consumeEnv : Nat → Nat → CallEnv) (activeQuests : List ActiveQuest) :
    List Tx × Outcome (List QuestRequest) :=
  let questingHeroes := activeQuests.flatMap (fun q => q.heroes)
  getQuestsToStartLoop config getCurrentStamina consumeEnv questingHeroes 0 config.quests

/-- The call `array.slice(start, stop)` for non-negative integer bounds. -/
def slice {α : Type} (array : List α) (start stop : Nat) : List α :=
  (array.drop start).take (stop - start)

/-- The function `startQuestBatch` (lines 298-319). -/
def startQuestBatch (config : Config) (env : CallEnv) (quest : QuestRequest)
    (questingGroup : List Nat) : List Tx × Outcome Unit :=
  if env.metaData = false then ([], .threw)
  else
    match tryTransaction env.tx with
    | .returned _ =>
      ([.startQuest questingGroup quest.address config.questAttempts quest.level], .returned ())
    | .threw =>
      ([.startQuest questingGroup quest.address config.questAttempts quest.level], .returned ())
    | .exited =>
      ([.startQuest questingGroup quest.address config.questAttempts quest.level], .exited)

/-- The `while (true)` loop of `startQuest` (lines 278-289), entered with the counter
`batch`; `env batch` answers the calls of the batch numbered `batch`. -/
def startQuestLoop (config : Config) (env : Nat → CallEnv) (quest : QuestRequest)
    (batch : Nat) : List Tx × Outcome Unit :=
  if (slice quest.heroes (batch * config.maxQuestGroupSize)
      (batch * config.maxQuestGroupSize + config.maxQuestGroupSize)).length = 0 then
    ([], .returned ())
  else
    match startQuestBatch config (env batch) quest
        (slice quest.heroes (batch * config.maxQuestGroupSize)
          (batch * config.maxQuestGroupSize + config.maxQuestGroupSize)) with
    | (t, .returned _) =>
      match startQuestLoop config env quest (batch + 1) with
      | (t2, outcome) => (t ++ t2, outcome)
    | (t, .threw) => (t, .threw)
    | (t, .exited) => (t, .exited)
termination_by quest.heroes.length - batch * config.maxQuestGroupSize
decreasing_by
  rename_i h
  simp only [slice, List.length_take, List.length_drop] at h
  have hk : 0 < config.maxQuestGroupSize := by
    rcases Nat.eq_zero_or_pos config.maxQuestGroupSize with h0 | h0
    · simp [h0] at h
    · exact h0
  rw [Nat.succ_mul]
  omega

/-- The function `startQuest` (lines 275-296): an exception leaving the loop is caught
and only logged. -/
def startQuest (config : Config) (env : Nat → CallEnv) (quest : QuestRequest) :
    List Tx × Outcome Unit :=
  match startQuestLoop config env quest 0 with
  | (t, .returned _) => (t, .returned ())
  | (t, .threw) => (t, .returned ())
  | (t, .exited) => (t, .exited)

/-- The function `completeQuest` (lines 321-383). After the transaction the function
only reports; whatever is thrown there is caught by the same `catch`. -/
def completeQuest (env : CallEnv) (heroId : Option Nat) : List Tx × Outcome Unit :=
  if env.metaData = false then ([], .threw)
  else
    match tryTransaction env.tx with
    | .returned _ => ([.completeQuest heroId], .returned ())
    | .threw => ([.completeQuest heroId], .returned ())
    | .exited => ([.completeQuest heroId], .exited)

/-! ## One iteration of `checkForQuests` -/

/-- The value `Math.round(Date.now() / 1000)` when `Date.now()` is `dateNow`. -/
def nowSeconds (dateNow : Nat) : Nat := (dateNow + 500) / 1000

/-- The array `runningQuests` (lines 132-134). The elements of `activeQuests` are
object references and `heap` gives the object behind a reference; `now` is the value
of `Math.round(Date.now() / 1000)`, taken to be the same for every element. -/
def runningQuests (heap : Nat → ActiveQuest) (activeQuests : List Nat) (now : Nat) :
    List Nat :=
  activeQuests.filter (fun quest => decide ((heap quest).completeAtTime ≥ now))

/-- The array `doneQuests` (lines 145-147); `includes` compares references. -/
def doneQuests (heap : Nat → ActiveQuest) (activeQuests : List Nat) (now : Nat) :
    List Nat :=
  activeQuests.filter (fun quest => !(runningQuests heap activeQuests now).contains quest)

/-- The loop `for (const quest of doneQuests)` (lines 148-150), from position `index`
on. -/
def completeDoneQuests (heap : Nat → ActiveQuest) (completeEnv : Nat → CallEnv) :
    Nat → List Nat → List Tx × Outcome Unit
  | _, [] => ([], .returned ())
  | index, quest :: rest =>
    match completeQuest (completeEnv index) (heap quest).heroes[0]? with
    | (t, .returned _) =>
      match completeDoneQuests heap completeEnv (index + 1) rest with
      | (t2, outcome) => (t ++ t2, outcome)
    | (t, .threw) => (t, .threw)
    | (t, .exited) => (t, .exited)

/-- The loop `for (const quest of questsToStart)` (lines 176-178), from position
`index` on. -/
def startQuests (config : Config) (startEnv : Nat → Nat → CallEnv) :
    Nat → List QuestRequest → List Tx × Outcome Unit
  | _, [] => ([], .returned ())
  | index, quest :: rest =>
    match startQuest config (startEnv index) quest with
    | (t, .returned _) =>
      match startQuests config startEnv (index + 1) rest with
      | (t2, outcome) => (t ++ t2, outcome)
    | (t, .threw) => (t, .threw)
    | (t, .exited) => (t, .exited)

/-- The answers received during one iteration of the loop of `checkForQuests`:
the metadata fetch of line 122, the two reads of the active quests (`none`: rejected),
the clock, the calls of each completion, the stats read of line 152 (`xp`, `level`),
and the calls of the starting step. -/
structure TickEnv where
  metaData : Bool
  activeQuests : Option (List Nat)
  heap : Nat → ActiveQuest
  dateNow : Nat
  completeEnv : Nat → CallEnv
  heroStats : Option (Nat × Nat)
  activeQuests2 : Option (List ActiveQuest)
  getCurrentStamina : Nat → Nat → Option Nat
  consumeEnv : Nat → Nat → CallEnv
  startEnv : Nat → Nat → CallEnv

/-- How one iteration ends: the function returns (the loop is left), the iteration
goes on to the countdown and the next iteration, or the process has exited. -/
inductive TickResult where
  | halted
  | waiting
  | exited
  deriving DecidableEq, Repr

/-- The part of an iteration from the stats read on (lines 152-178), `t` being the
transactions issued so far. -/
def levelEvaluation (config : Config) (env : TickEnv) (t : List Tx) : List Tx × TickResult :=
  match env.heroStats with
  | none => (t, .waiting)
  | some (xp, level) =>
    if levelCondition xp level then (t, .halted)
    else
      match env.activeQuests2 with
      | none => (t, .waiting)
      | some activeQuests =>
        match getQuestsToStart config env.getCurrentStamina env.consumeEnv activeQuests with
        | (t2, .threw) => (t ++ t2, .waiting)
        | (t2, .exited) => (t ++ t2, .exited)
        | (t2, .returned questsToStart) =>
          match startQuests config env.startEnv 0 questsToStart with
          | (t3, .exited) => (t ++ t2 ++ t3, .exited)
          | (t3, _) => (t ++ t2 ++ t3, .waiting)

/-- The body of the `while (true)` loop of `checkForQuests` (lines 121-185): every
exception is caught at line 179 and the iteration goes on to the countdown. -/
def checkForQuests (config : Config) (env : TickEnv) : List Tx × TickResult :=
  if env.metaData = false then ([], .waiting)
  else
    match env.activeQuests with
    | none => ([], .waiting)
    | some activeQuests =>
      match completeDoneQuests env.heap env.completeEnv 0
          (doneQuests env.heap activeQuests (nowSeconds env.dateNow)) with
      | (t, .threw) => (t, .waiting)
      | (t, .exited) => (t, .exited)
      | (t, .returned _) => levelEvaluation config env t

/-! ## Successful answers -/

/-- The calls answered by `env` all succeed: the metadata fetch resolves and the
transaction is mined with status 1 before the timer fires. -/
def CallEnv.succeeds (env : CallEnv) : Bool :=
  env.metaData &&
    (match env.tx with
     | .mined receipt => decide (receipt.status = 1)
     | _ => false)

/-- The stamina read of `hero` is answered with a value below `minStamina`. -/
def lowStamina (getCurrentStamina : Nat → Option Nat) (minStamina : Nat) (hero : Nat) : Bool :=
  match getCurrentStamina hero with
  | some stamina => decide (stamina < minStamina)
  | none => false

/-- The groups of actors of the start transactions of a list of transactions. -/
def startedGroups : List Tx → List (List Nat)
  | [] => []
  | .startQuest questingGroup _ _ _ :: rest => questingGroup :: startedGroups rest
  | _ :: rest => startedGroups rest

/-- The transaction is a `completeQuest`. -/
def Tx.isCompleteQuest : Tx → Bool
  | .completeQuest _ => true
  | _ => false

/-! ## Example inputs -/

/-- Answers of a call in which the fetch resolves and the transaction is mined with
status 1. -/
def succeedingCall : CallEnv := { metaData := true, tx := .mined { status := 1 } }

/-- Answers of a call whose metadata fetch is rejected. -/
def rejectedFetch : CallEnv := { metaData := false, tx := .mined { status := 1 } }

/-- Answers of a call whose transaction is mined with status 0. -/
def revertedCall : CallEnv := { metaData := true, tx := .mined { status := 0 } }

/-- A configuration with one quest, groups of at most two actors and a minimum
stamina of 15. -/
def exampleConfig : Config :=
  { quests := [{ name := "Foraging", contractAddress := "0xF", level := 1,
                 professionHeroes := [11, 12, 13] }],
    maxQuestGroupSize := 2, consumeStaminaVialIfMinStamina := 15, questAttempts := 3 }

/-- A start request for three ready actors. -/
def exampleRequest : QuestRequest :=
  { name := "Foraging", address := "0xF", professional := true, heroes := [11, 12, 13],
    level := 1 }

/-! ## Lemmas -/

theorem levelCondition_eq_false_of_ge (xp level : Nat) (h : 22 ≤ level) :
    levelCondition xp level = false := by
  unfold levelCondition
  have : xplimits[level]? = none := by
    apply List.getElem?_eq_none
    simp [xplimits]; exact h
  rw [this]

theorem levelEvaluation_halted_iff (config : Config) (env : TickEnv) (t : List Tx)
    (xp level : Nat) (hs : env.heroStats = some (xp, level)) :
    (levelEvaluation config env t).2 = .halted ↔ levelCondition xp level = true := by
  unfold levelEvaluation
  rw [hs]
  by_cases hc : levelCondition xp level = true
  · simp [hc]
  · simp [hc]
    cases env.activeQuests2 with
    | none => simp
    | some aq =>
      simp only
      split
      · simp
      · simp
      · split <;> simp


theorem mem_runningQuests (heap : Nat → ActiveQuest) (activeQuests : List Nat) (now quest : Nat) :
    quest ∈ runningQuests heap activeQuests now ↔
      quest ∈ activeQuests ∧ now ≤ (heap quest).completeAtTime := by
  simp [runningQuests]

theorem doneQuests_eq_filter (heap : Nat → ActiveQuest) (activeQuests : List Nat) (now : Nat) :
    doneQuests heap activeQuests now =
      activeQuests.filter (fun quest => decide ((heap quest).completeAtTime < now)) := by
  unfold doneQuests
  apply List.filter_congr
  intro quest hq
  by_cases hc : now ≤ (heap quest).completeAtTime
  · have hin : quest ∈ runningQuests heap activeQuests now :=
      (mem_runningQuests heap activeQuests now quest).2 ⟨hq, hc⟩
    have hlt : ¬ (heap quest).completeAtTime < now := by omega
    simp [hin, hlt]
  · have hin : quest ∉ runningQuests heap activeQuests now := fun hmem =>
      hc ((mem_runningQuests heap activeQuests now quest).1 hmem).2
    have hlt : (heap quest).completeAtTime < now := by omega
    simp [hin, hlt]

theorem mem_doneQuests (heap : Nat → ActiveQuest) (activeQuests : List Nat) (now quest : Nat) :
    quest ∈ doneQuests heap activeQuests now ↔
      quest ∈ activeQuests ∧ (heap quest).completeAtTime < now := by
  rw [doneQuests_eq_filter]; simp

theorem count_running_add_done (heap : Nat → ActiveQuest) (activeQuests : List Nat) (now quest : Nat) :
    (runningQuests heap activeQuests now).count quest +
      (doneQuests heap activeQuests now).count quest = activeQuests.count quest := by
  rw [doneQuests_eq_filter]
  unfold runningQuests
  induction activeQuests with
  | nil => simp
  | cons a rest ih =>
    by_cases hc : now ≤ (heap a).completeAtTime
    · have hlt : ¬ (heap a).completeAtTime < now := by omega
      simp only [List.filter_cons, hc, hlt, decide_True, decide_False, if_true, ge_iff_le]
      simp only [List.count_cons]
      simp at ih ⊢
      omega
    · have hlt : (heap a).completeAtTime < now := by omega
      simp only [List.filter_cons, hc, hlt, decide_True, decide_False, if_true, ge_iff_le]
      simp only [List.count_cons]
      simp at ih ⊢
      omega


theorem succeeds_iff (env : CallEnv) :
    env.succeeds = true ↔ env.metaData = true ∧ ∃ receipt, tryTransaction env.tx = .returned receipt := by
  rcases env with ⟨m, tx⟩
  cases tx with
  | submitThrows => simp [CallEnv.succeeds, tryTransaction, tryTransactionBody]
  | waitThrows => simp [CallEnv.succeeds, tryTransaction, tryTransactionBody]
  | timedOut => simp [CallEnv.succeeds, tryTransaction, tryTransactionBody]
  | mined r =>
    by_cases hs : r.status = 1 <;> simp [CallEnv.succeeds, tryTransaction, tryTransactionBody, hs]

theorem consumeItem_of_succeeds (env : CallEnv) (itemAddress : String) (heroID : Option Nat)
    (h : env.succeeds = true) :
    consumeItem env itemAddress heroID = ([.consumeItem itemAddress heroID], .returned ()) := by
  obtain ⟨hm, r, hr⟩ := (succeeds_iff env).1 h
  simp [consumeItem, hm, hr]

theorem startQuestBatch_of_succeeds (config : Config) (env : CallEnv) (quest : QuestRequest)
    (questingGroup : List Nat) (h : env.succeeds = true) :
    startQuestBatch config env quest questingGroup =
      ([.startQuest questingGroup quest.address config.questAttempts quest.level],
        .returned ()) := by
  obtain ⟨hm, r, hr⟩ := (succeeds_iff env).1 h
  simp [startQuestBatch, hm, hr]

theorem completeQuest_of_succeeds (env : CallEnv) (heroId : Option Nat)
    (h : env.succeeds = true) :
    completeQuest env heroId = ([.completeQuest heroId], .returned ()) := by
  obtain ⟨hm, r, hr⟩ := (succeeds_iff env).1 h
  simp [completeQuest, hm, hr]

theorem promiseAll_eq_some {α : Type} (promises : List (Option α)) (values : List α)
    (h : promiseAll promises = some values) : promises = values.map some := by
  induction promises generalizing values with
  | nil => simp [promiseAll] at h; subst h; rfl
  | cons p rest ih =>
    cases p with
    | none => simp [promiseAll] at h
    | some a =>
      simp only [promiseAll] at h
      cases hr : promiseAll rest with
      | none => simp [hr] at h
      | some vs =>
        simp [hr] at h
        subst h
        simp [ih vs hr]

theorem promiseAll_map_some {α : Type} (values : List α) :
    promiseAll (values.map some) = some values := by
  induction values with
  | nil => rfl
  | cons a rest ih => simp [promiseAll, ih]

theorem staminaMapper_returned (minStamina : Nat) (heroes : List Nat)
    (consumeEnv : Nat → CallEnv) (value index : Nat) (t : List Tx) (b : Option Nat)
    (h : staminaMapper minStamina heroes consumeEnv value index = (t, .returned b)) :
    b = heroes[index]? := by
  unfold staminaMapper at h
  simp only at h
  split at h
  · simp at h; exact h.2.symm
  · split at h
    · simp at h; exact h.2.symm
    · simp at h
    · simp at h

theorem bluebirdMap_staminaMapper_returned (minStamina : Nat) (consumeEnv : Nat → CallEnv)
    (suf : List Nat) :
    ∀ (pre : List Nat) (results : List Nat) (t : List Tx) (raw : List (Option Nat)),
      results.length = suf.length →
      bluebirdMap (staminaMapper minStamina (pre ++ suf) consumeEnv) pre.length results
        = (t, .returned raw) →
      raw = suf.map some := by
  induction suf with
  | nil =>
    intro pre results t raw hlen h
    have : results = [] := List.length_eq_zero.mp hlen
    subst this
    simp [bluebirdMap] at h
    simp [h.2]
  | cons a suf ih =>
    intro pre results t raw hlen h
    cases results with
    | nil => simp at hlen
    | cons v results =>
      simp only [bluebirdMap] at h
      rcases hm : staminaMapper minStamina (pre ++ a :: suf) consumeEnv v pre.length with ⟨tm, om⟩
      rw [hm] at h
      cases om with
      | exited => simp at h
      | threw =>
        simp only at h
        split at h <;> simp at h
      | returned b =>
        simp only at h
        rcases hrec : bluebirdMap (staminaMapper minStamina (pre ++ a :: suf) consumeEnv)
          (pre.length + 1) results with ⟨tr, orr⟩
        rw [hrec] at h
        cases orr with
        | exited => simp at h
        | threw => simp at h
        | returned bs =>
          simp at h
          have hb := staminaMapper_returned _ _ _ _ _ _ _ hm
          have hpre : pre ++ a :: suf = (pre ++ [a]) ++ suf := by simp
          have hlen2 : results.length = suf.length := by simpa using hlen
          have hrec2 : bluebirdMap (staminaMapper minStamina ((pre ++ [a]) ++ suf) consumeEnv)
              (pre ++ [a]).length results = (tr, .returned bs) := by
            rw [← hpre]; simpa using hrec
          have hbs := ih (pre ++ [a]) results tr bs hlen2 hrec2
          have hget : (pre ++ a :: suf)[pre.length]? = some a := by
            rw [List.getElem?_append_right (le_refl _)]
            simp
          rw [← h.2, hbs, hb, hget]
          simp

theorem reduceOption_filter_truthy (heroes : List Nat) :
    ((heroes.map some).filter (fun h => truthy h)).reduceOption =
      heroes.filter (fun h => decide (h ≠ 0)) := by
  induction heroes with
  | nil => rfl
  | cons a rest ih =>
    by_cases ha : a = 0
    · simp [List.filter_cons, truthy, ha] at ih ⊢
      exact ih
    · simp [List.filter_cons, truthy, ha, List.reduceOption_cons_of_some] at ih ⊢
      exact ih

theorem bluebirdMap_staminaMapper_of_succeeds (minStamina : Nat) (consumeEnv : Nat → CallEnv)
    (getCurrentStamina : Nat → Option Nat) (henv : ∀ i, (consumeEnv i).succeeds = true)
    (suf : List Nat) :
    ∀ (pre : List Nat) (results : List Nat),
      suf.map getCurrentStamina = results.map some →
      bluebirdMap (staminaMapper minStamina (pre ++ suf) consumeEnv) pre.length results =
        ((suf.filter (lowStamina getCurrentStamina minStamina)).map
            (fun h => Tx.consumeItem staminaVial (some h)),
          .returned (suf.map some)) := by
  induction suf with
  | nil =>
    intro pre results hres
    have : results = [] := by simpa using hres.symm
    subst this
    simp [bluebirdMap]
  | cons a suf ih =>
    intro pre results hres
    cases results with
    | nil => simp at hres
    | cons v results =>
      simp only [List.map_cons, List.cons.injEq] at hres
      obtain ⟨hv, hrest⟩ := hres
      have hget : (pre ++ a :: suf)[pre.length]? = some a := by
        rw [List.getElem?_append_right (le_refl _)]
        simp
      have hpre : pre ++ a :: suf = (pre ++ [a]) ++ suf := by simp
      have hrec := ih (pre ++ [a]) results hrest
      rw [← hpre] at hrec
      have hlen : (pre ++ [a]).length = pre.length + 1 := by simp
      rw [hlen] at hrec
      simp only [bluebirdMap]
      by_cases hlow : v < minStamina
      · have hm : staminaMapper minStamina (pre ++ a :: suf) consumeEnv v pre.length =
            ([Tx.consumeItem staminaVial (some a)], .returned (some a)) := by
          have hge : ¬ v ≥ minStamina := by omega
          simp [staminaMapper, hge, hget, consumeItem_of_succeeds _ _ _ (henv pre.length)]
        rw [hm, hrec]
        simp [List.filter_cons, lowStamina, hv, hlow]
      · have hm : staminaMapper minStamina (pre ++ a :: suf) consumeEnv v pre.length =
            ([], .returned (some a)) := by
          have hge : v ≥ minStamina := by omega
          simp [staminaMapper, hge, hget]
        rw [hm, hrec]
        simp [List.filter_cons, lowStamina, hv, hlow]

theorem getHeroesWithGoodStamina_returned (config : Config)
    (getCurrentStamina : Nat → Option Nat) (consumeEnv : Nat → CallEnv)
    (questingHeroes : List Nat) (quest : QuestDefinition) (professional : Bool)
    (t : List Tx) (ready : List Nat)
    (h : getHeroesWithGoodStamina config getCurrentStamina consumeEnv questingHeroes quest
      professional = (t, .returned ready)) :
    ready = (quest.professionHeroes.filter (fun h => !questingHeroes.contains h)).filter
      (fun h => decide (h ≠ 0)) := by
  unfold getHeroesWithGoodStamina at h
  simp only at h
  cases hp : promiseAll ((quest.professionHeroes.filter
      (fun h => !questingHeroes.contains h)).map (fun hero => getCurrentStamina hero)) with
  | none => rw [hp] at h; simp at h
  | some results =>
    rw [hp] at h
    simp only at h
    have hmap := promiseAll_eq_some _ _ hp
    have hlen : results.length =
        (quest.professionHeroes.filter (fun h => !questingHeroes.contains h)).length := by
      have := congrArg List.length hmap
      simpa using this.symm
    rcases hb : bluebirdMap (staminaMapper config.consumeStaminaVialIfMinStamina
      (quest.professionHeroes.filter (fun h => !questingHeroes.contains h)) consumeEnv) 0
      results with ⟨tb, ob⟩
    rw [hb] at h
    cases ob with
    | threw => simp at h
    | exited => simp at h
    | returned raw =>
      simp only [Prod.mk.injEq, Outcome.returned.injEq] at h
      have hraw := bluebirdMap_staminaMapper_returned config.consumeStaminaVialIfMinStamina
        consumeEnv (quest.professionHeroes.filter (fun h => !questingHeroes.contains h))
        [] results tb raw hlen (by simpa using hb)
      rw [← h.2, hraw, reduceOption_filter_truthy]

theorem getHeroesWithGoodStamina_of_succeeds (config : Config)
    (getCurrentStamina : Nat → Option Nat) (consumeEnv : Nat → CallEnv)
    (questingHeroes : List Nat) (quest : QuestDefinition) (professional : Bool)
    (hread : ∀ h ∈ quest.professionHeroes, h ∉ questingHeroes →
      (getCurrentStamina h).isSome = true)
    (henv : ∀ i, (consumeEnv i).succeeds = true) :
    getHeroesWithGoodStamina config getCurrentStamina consumeEnv questingHeroes quest
      professional =
      (((quest.professionHeroes.filter (fun h => !questingHeroes.contains h)).filter
          (lowStamina getCurrentStamina config.consumeStaminaVialIfMinStamina)).map
          (fun h => Tx.consumeItem staminaVial (some h)),
        .returned ((quest.professionHeroes.filter (fun h => !questingHeroes.contains h)).filter
          (fun h => decide (h ≠ 0)))) := by
  have hmap : (quest.professionHeroes.filter (fun h => !questingHeroes.contains h)).map
      getCurrentStamina =
      ((quest.professionHeroes.filter (fun h => !questingHeroes.contains h)).map
        (fun h => (getCurrentStamina h).getD 0)).map some := by
    rw [List.map_map]
    apply List.map_congr_left
    intro h hh
    have hmem := List.mem_filter.1 hh
    have hsome := hread h hmem.1 (by simpa using hmem.2)
    cases hg : getCurrentStamina h with
    | none => simp [hg] at hsome
    | some v => simp [hg]
  unfold getHeroesWithGoodStamina
  simp only
  have hp : promiseAll ((quest.professionHeroes.filter
      (fun h => !questingHeroes.contains h)).map (fun hero => getCurrentStamina hero)) =
      some ((quest.professionHeroes.filter (fun h => !questingHeroes.contains h)).map
        (fun h => (getCurrentStamina h).getD 0)) := by
    rw [hmap, promiseAll_map_some]
  rw [hp]
  simp only
  have hb := bluebirdMap_staminaMapper_of_succeeds config.consumeStaminaVialIfMinStamina
    consumeEnv getCurrentStamina henv
    (quest.professionHeroes.filter (fun h => !questingHeroes.contains h)) [] _ hmap
  simp only [List.nil_append, List.length_nil] at hb
  rw [hb]
  simp only [reduceOption_filter_truthy]

theorem getQuestsToStartLoop_returned (config : Config)
    (getCurrentStamina : Nat → Nat → Option Nat) (consumeEnv : Nat → Nat → CallEnv)
    (questingHeroes : List Nat) (quests : List QuestDefinition) :
    ∀ (index : Nat) (t : List Tx) (questsToStart : List QuestRequest),
      getQuestsToStartLoop config getCurrentStamina consumeEnv questingHeroes index quests =
        (t, .returned questsToStart) →
      questsToStart =
        (quests.filter (fun quest => decide (quest.professionHeroes.length > 0))).map
          (fun quest =>
            { name := quest.name, address := quest.contractAddress, professional := true,
              heroes := (quest.professionHeroes.filter
                (fun h => !questingHeroes.contains h)).filter (fun h => decide (h ≠ 0)),
              level := quest.level }) := by
  induction quests with
  | nil =>
    intro index t questsToStart h
    simp [getQuestsToStartLoop] at h
    simp [h.2]
  | cons quest rest ih =>
    intro index t questsToStart h
    simp only [getQuestsToStartLoop] at h
    by_cases hlen : quest.professionHeroes.length > 0
    · simp only [hlen, if_true] at h
      rcases hg : getHeroesWithGoodStamina config (getCurrentStamina index) (consumeEnv index)
        questingHeroes quest true with ⟨tg, og⟩
      rw [hg] at h
      cases og with
      | threw => simp at h
      | exited => simp at h
      | returned ready =>
        simp only at h
        rcases hrec : getQuestsToStartLoop config getCurrentStamina consumeEnv questingHeroes
          (index + 1) rest with ⟨tr, orr⟩
        rw [hrec] at h
        cases orr with
        | threw => simp at h
        | exited => simp at h
        | returned reqs =>
          simp only [Prod.mk.injEq, Outcome.returned.injEq] at h
          have hready := getHeroesWithGoodStamina_returned _ _ _ _ _ _ _ _ hg
          have hreqs := ih (index + 1) tr reqs hrec
          rw [← h.2, hreqs, hready]
          simp [List.filter_cons, hlen]
    · simp only [hlen, if_false] at h
      have hreqs := ih (index + 1) t questsToStart h
      rw [hreqs]
      simp [List.filter_cons, hlen]

theorem completeDoneQuests_of_succeeds (heap : Nat → ActiveQuest)
    (completeEnv : Nat → CallEnv) (henv : ∀ i, (completeEnv i).succeeds = true)
    (quests : List Nat) :
    ∀ index : Nat, completeDoneQuests heap completeEnv index quests =
      (quests.map (fun quest => Tx.completeQuest (heap quest).heroes[0]?), .returned ()) := by
  induction quests with
  | nil => intro index; simp [completeDoneQuests]
  | cons quest rest ih =>
    intro index
    simp [completeDoneQuests, completeQuest_of_succeeds _ _ (henv index), ih (index + 1)]

theorem ceil_lt_iff (N K batch : Nat) (hK : 1 ≤ K) :
    batch < (N + K - 1) / K ↔ batch * K < N := by
  rw [Nat.lt_iff_add_one_le, Nat.le_div_iff_mul_le (by omega), Nat.add_mul]
  omega

theorem slice_length_eq_zero_iff {α : Type} (array : List α) (K batch : Nat) (hK : 1 ≤ K) :
    (slice array (batch * K) (batch * K + K)).length = 0 ↔ array.length ≤ batch * K := by
  simp only [slice, List.length_take, List.length_drop]
  omega

theorem startQuestLoop_of_succeeds (config : Config) (env : Nat → CallEnv)
    (quest : QuestRequest) (hK : 1 ≤ config.maxQuestGroupSize)
    (henv : ∀ i, (env i).succeeds = true) :
    ∀ (n batch : Nat), n = (quest.heroes.length + config.maxQuestGroupSize - 1) /
        config.maxQuestGroupSize - batch →
      startQuestLoop config env quest batch =
        ((List.range' batch n).map (fun b =>
            Tx.startQuest (slice quest.heroes (b * config.maxQuestGroupSize)
              (b * config.maxQuestGroupSize + config.maxQuestGroupSize))
              quest.address config.questAttempts quest.level),
          .returned ()) := by
  intro n
  induction n with
  | zero =>
    intro batch hn
    have hge : ¬ batch < (quest.heroes.length + config.maxQuestGroupSize - 1) /
        config.maxQuestGroupSize := by omega
    rw [ceil_lt_iff _ _ _ hK] at hge
    have hz := (slice_length_eq_zero_iff quest.heroes config.maxQuestGroupSize batch hK).2
      (by omega)
    rw [startQuestLoop]
    simp [hz]
  | succ n ih =>
    intro batch hn
    have hlt : batch < (quest.heroes.length + config.maxQuestGroupSize - 1) /
        config.maxQuestGroupSize := by omega
    rw [ceil_lt_iff _ _ _ hK] at hlt
    have hz : ¬ (slice quest.heroes (batch * config.maxQuestGroupSize)
        (batch * config.maxQuestGroupSize + config.maxQuestGroupSize)).length = 0 := by
      rw [slice_length_eq_zero_iff _ _ _ hK]; omega
    rw [startQuestLoop]
    simp only [hz, if_false, startQuestBatch_of_succeeds _ _ _ _ (henv batch)]
    rw [ih (batch + 1) (by omega)]
    simp [List.range'_succ]

theorem startedGroups_map_startQuest {β : Type} (group : β → List Nat) (address : String)
    (attempts level : Nat) (bs : List β) :
    startedGroups (bs.map (fun b => Tx.startQuest (group b) address attempts level)) =
      bs.map group := by
  induction bs with
  | nil => rfl
  | cons b rest ih => simp [startedGroups, ih]

theorem flatten_slices {α : Type} (array : List α) (K : Nat) :
    ∀ n : Nat, ((List.range' 0 n).map (fun b => slice array (b * K) (b * K + K))).flatten =
      array.take (n * K) := by
  intro n
  induction n with
  | zero => simp
  | succ n ih =>
    rw [List.range'_concat, List.map_append, List.flatten_append, ih]
    have hs : slice array ((0 + 1 * n) * K) ((0 + 1 * n) * K + K) =
        (array.drop (n * K)).take K := by
      simp [slice]
    simp only [List.map_cons, List.map_nil, List.flatten_cons, List.flatten_nil,
      List.append_nil, hs]
    rw [Nat.succ_mul, List.take_add]

theorem startQuest_of_succeeds (config : Config) (env : Nat → CallEnv)
    (quest : QuestRequest) (hK : 1 ≤ config.maxQuestGroupSize)
    (henv : ∀ i, (env i).succeeds = true) :
    startQuest config env quest =
      ((List.range' 0 ((quest.heroes.length + config.maxQuestGroupSize - 1) /
          config.maxQuestGroupSize)).map (fun b =>
            Tx.startQuest (slice quest.heroes (b * config.maxQuestGroupSize)
              (b * config.maxQuestGroupSize + config.maxQuestGroupSize))
              quest.address config.questAttempts quest.level),
        .returned ()) := by
  unfold startQuest
  rw [startQuestLoop_of_succeeds config env quest hK henv _ 0 rfl]
  simp

theorem consumeItem_trace (env : CallEnv) (itemAddress : String) (heroID : Option Nat) :
    ∀ tx ∈ (consumeItem env itemAddress heroID).1, tx.isCompleteQuest = false := by
  intro tx htx
  unfold consumeItem at htx
  split at htx
  · simp at htx
  · split at htx <;> simp at htx <;> subst htx <;> rfl

theorem staminaMapper_trace (minStamina : Nat) (heroes : List Nat)
    (consumeEnv : Nat → CallEnv) (value index : Nat) :
    ∀ tx ∈ (staminaMapper minStamina heroes consumeEnv value index).1,
      tx.isCompleteQuest = false := by
  intro tx htx
  unfold staminaMapper at htx
  simp only at htx
  split at htx
  · simp at htx
  · have hc := consumeItem_trace (consumeEnv index) staminaVial heroes[index]? tx
    split at htx <;> rename_i heq <;> rw [heq] at hc <;> exact hc htx

theorem bluebirdMap_trace {α β : Type} (mapper : α → Nat → List Tx × Outcome β)
    (hmapper : ∀ value index, ∀ tx ∈ (mapper value index).1, tx.isCompleteQuest = false)
    (values : List α) :
    ∀ index, ∀ tx ∈ (bluebirdMap mapper index values).1, tx.isCompleteQuest = false := by
  induction values with
  | nil => intro index tx htx; simp [bluebirdMap] at htx
  | cons value rest ih =>
    intro index tx htx
    simp only [bluebirdMap] at htx
    have hm := hmapper value index tx
    have hr := ih (index + 1) tx
    rcases hmv : mapper value index with ⟨tm, om⟩
    rcases hrv : bluebirdMap mapper (index + 1) rest with ⟨tr, orr⟩
    rw [hmv] at htx hm
    rw [hrv] at htx hr
    simp only at hm hr
    cases om with
    | exited => exact hm htx
    | threw =>
      cases orr <;> simp only [List.mem_append] at htx <;> rcases htx with h | h <;>
        first | exact hm h | exact hr h
    | returned b =>
      cases orr <;> simp only [List.mem_append] at htx <;> rcases htx with h | h <;>
        first | exact hm h | exact hr h

theorem getHeroesWithGoodStamina_trace (config : Config)
    (getCurrentStamina : Nat → Option Nat) (consumeEnv : Nat → CallEnv)
    (questingHeroes : List Nat) (quest : QuestDefinition) (professional : Bool) :
    ∀ tx ∈ (getHeroesWithGoodStamina config getCurrentStamina consumeEnv questingHeroes
      quest professional).1, tx.isCompleteQuest = false := by
  intro tx htx
  unfold getHeroesWithGoodStamina at htx
  simp only at htx
  split at htx
  · simp at htx
  · rename_i results _
    have hb := bluebirdMap_trace
      (staminaMapper config.consumeStaminaVialIfMinStamina
        (quest.professionHeroes.filter (fun h => !questingHeroes.contains h)) consumeEnv)
      (staminaMapper_trace _ _ _) results 0 tx
    split at htx <;> rename_i heq <;> rw [heq] at hb <;> exact hb htx

theorem getQuestsToStartLoop_trace (config : Config)
    (getCurrentStamina : Nat → Nat → Option Nat) (consumeEnv : Nat → Nat → CallEnv)
    (questingHeroes : List Nat) (quests : List QuestDefinition) :
    ∀ index, ∀ tx ∈ (getQuestsToStartLoop config getCurrentStamina consumeEnv
      questingHeroes index quests).1, tx.isCompleteQuest = false := by
  induction quests with
  | nil => intro index tx htx; simp [getQuestsToStartLoop] at htx
  | cons quest rest ih =>
    intro index tx htx
    simp only [getQuestsToStartLoop] at htx
    split at htx
    · have hg := getHeroesWithGoodStamina_trace config (getCurrentStamina index)
        (consumeEnv index) questingHeroes quest true tx
      have hr := ih (index + 1) tx
      rcases hgv : getHeroesWithGoodStamina config (getCurrentStamina index)
        (consumeEnv index) questingHeroes quest true with ⟨tg, og⟩
      rcases hrv : getQuestsToStartLoop config getCurrentStamina consumeEnv questingHeroes
        (index + 1) rest with ⟨tr, orr⟩
      rw [hgv] at htx hg
      rw [hrv] at htx hr
      simp only at hg hr
      cases og with
      | threw => exact hg htx
      | exited => exact hg htx
      | returned ready =>
        cases orr <;> simp only [List.mem_append] at htx <;> rcases htx with h | h <;>
          first | exact hg h | exact hr h
    · exact ih (index + 1) tx htx

theorem startQuestBatch_trace (config : Config) (env : CallEnv) (quest : QuestRequest)
    (questingGroup : List Nat) :
    ∀ tx ∈ (startQuestBatch config env quest questingGroup).1,
      tx.isCompleteQuest = false := by
  intro tx htx
  unfold startQuestBatch at htx
  split at htx
  · simp at htx
  · split at htx <;> simp at htx <;> subst htx <;> rfl

theorem startQuestLoop_trace (config : Config) (env : Nat → CallEnv) (quest : QuestRequest) :
    ∀ batch, ∀ tx ∈ (startQuestLoop config env quest batch).1,
      tx.isCompleteQuest = false := by
  refine startQuestLoop.induct config env quest
    (fun batch => ∀ tx ∈ (startQuestLoop config env quest batch).1,
      tx.isCompleteQuest = false) ?_ ?_ ?_ ?_
  · intro batch hz tx htx
    rw [startQuestLoop] at htx
    simp [hz] at htx
  · intro batch hz t a hb t2 outcome hrec ih tx htx
    rw [startQuestLoop] at htx
    simp only [hz, if_false, hb, hrec, List.mem_append] at htx
    have hbt := startQuestBatch_trace config (env batch) quest
      (slice quest.heroes (batch * config.maxQuestGroupSize)
        (batch * config.maxQuestGroupSize + config.maxQuestGroupSize)) tx
    rw [hb] at hbt
    rw [hrec] at ih
    rcases htx with h | h
    · exact hbt h
    · exact ih tx h
  · intro batch hz t hb tx htx
    rw [startQuestLoop] at htx
    simp only [hz, if_false, hb] at htx
    have hbt := startQuestBatch_trace config (env batch) quest
      (slice quest.heroes (batch * config.maxQuestGroupSize)
        (batch * config.maxQuestGroupSize + config.maxQuestGroupSize)) tx
    rw [hb] at hbt
    exact hbt htx
  · intro batch hz t hb tx htx
    rw [startQuestLoop] at htx
    simp only [hz, if_false, hb] at htx
    have hbt := startQuestBatch_trace config (env batch) quest
      (slice quest.heroes (batch * config.maxQuestGroupSize)
        (batch * config.maxQuestGroupSize + config.maxQuestGroupSize)) tx
    rw [hb] at hbt
    exact hbt htx

theorem startQuest_trace (config : Config) (env : Nat → CallEnv) (quest : QuestRequest) :
    ∀ tx ∈ (startQuest config env quest).1, tx.isCompleteQuest = false := by
  intro tx htx
  have hl := startQuestLoop_trace config env quest 0 tx
  unfold startQuest at htx
  rcases hv : startQuestLoop config env quest 0 with ⟨t, o⟩
  rw [hv] at htx hl
  cases o <;> exact hl htx

theorem startQuests_trace (config : Config) (startEnv : Nat → Nat → CallEnv)
    (quests : List QuestRequest) :
    ∀ index, ∀ tx ∈ (startQuests config startEnv index quests).1,
      tx.isCompleteQuest = false := by
  induction quests with
  | nil => intro index tx htx; simp [startQuests] at htx
  | cons quest rest ih =>
    intro index tx htx
    simp only [startQuests] at htx
    have hs := startQuest_trace config (startEnv index) quest tx
    have hr := ih (index + 1) tx
    rcases hsv : startQuest config (startEnv index) quest with ⟨ts, os⟩
    rcases hrv : startQuests config startEnv (index + 1) rest with ⟨tr, orr⟩
    rw [hsv] at htx hs
    rw [hrv] at htx hr
    simp only at hs hr
    cases os with
    | threw => exact hs htx
    | exited => exact hs htx
    | returned u =>
      simp only [List.mem_append] at htx
      rcases htx with h | h
      · exact hs h
      · exact hr h

theorem levelEvaluation_rest (config : Config) (env : TickEnv) (t : List Tx) :
    ∃ rest, (levelEvaluation config env t).1 = t ++ rest ∧
      ∀ tx ∈ rest, tx.isCompleteQuest = false := by
  unfold levelEvaluation
  cases env.heroStats with
  | none => exact ⟨[], by simp⟩
  | some stats =>
    rcases stats with ⟨xp, level⟩
    simp only
    by_cases hc : levelCondition xp level = true
    · exact ⟨[], by simp [hc]⟩
    · simp only [hc, if_false]
      cases env.activeQuests2 with
      | none => exact ⟨[], by simp⟩
      | some activeQuests =>
        simp only
        have hq := getQuestsToStartLoop_trace config env.getCurrentStamina env.consumeEnv
          (activeQuests.flatMap (fun q => q.heroes)) config.quests 0
        change ∀ tx ∈ (getQuestsToStart config env.getCurrentStamina env.consumeEnv
          activeQuests).1, tx.isCompleteQuest = false at hq
        rcases hqv : getQuestsToStart config env.getCurrentStamina env.consumeEnv
          activeQuests with ⟨t2, o2⟩
        rw [hqv] at hq
        simp only at hq
        cases o2 with
        | threw => exact ⟨t2, rfl, hq⟩
        | exited => exact ⟨t2, rfl, hq⟩
        | returned questsToStart =>
          simp only
          have hs := startQuests_trace config env.startEnv questsToStart 0
          rcases hsv : startQuests config env.startEnv 0 questsToStart with ⟨t3, o3⟩
          rw [hsv] at hs
          simp only at hs
          have hall : ∀ tx ∈ t2 ++ t3, tx.isCompleteQuest = false := by
            intro tx htx
            rcases List.mem_append.1 htx with h | h
            · exact hq tx h
            · exact hs tx h
          cases o3 with
          | threw => exact ⟨t2 ++ t3, by simp, hall⟩
          | exited => exact ⟨t2 ++ t3, by simp, hall⟩
          | returned u => exact ⟨t2 ++ t3, by simp, hall⟩

theorem startQuestBatch_cases (config : Config) (env : CallEnv) (quest : QuestRequest)
    (questingGroup : List Nat) :
    startQuestBatch config env quest questingGroup = ([], .threw) ∨
    startQuestBatch config env quest questingGroup =
      ([.startQuest questingGroup quest.address config.questAttempts quest.level],
        .returned ()) ∨
    startQuestBatch config env quest questingGroup =
      ([.startQuest questingGroup quest.address config.questAttempts quest.level],
        .exited) := by
  unfold startQuestBatch
  by_cases hm : env.metaData = false
  · left; simp [hm]
  · right
    simp only [hm, if_false]
    cases htx : tryTransaction env.tx with
    | returned r => left; rfl
    | threw => left; rfl
    | exited => right; rfl

theorem startQuestLoop_batches (config : Config) (env : Nat → CallEnv)
    (quest : QuestRequest) (hK : 1 ≤ config.maxQuestGroupSize) :
    ∀ (n batch : Nat), n = (quest.heroes.length + config.maxQuestGroupSize - 1) /
        config.maxQuestGroupSize - batch →
      ∃ m, m ≤ n ∧ (startQuestLoop config env quest batch).1 =
        (List.range' batch m).map (fun b =>
            Tx.startQuest (slice quest.heroes (b * config.maxQuestGroupSize)
              (b * config.maxQuestGroupSize + config.maxQuestGroupSize))
              quest.address config.questAttempts quest.level) := by
  intro n
  induction n with
  | zero =>
    intro batch hn
    have hge : ¬ batch < (quest.heroes.length + config.maxQuestGroupSize - 1) /
        config.maxQuestGroupSize := by omega
    rw [ceil_lt_iff _ _ _ hK] at hge
    have hz := (slice_length_eq_zero_iff quest.heroes config.maxQuestGroupSize batch hK).2
      (by omega)
    refine ⟨0, le_refl _, ?_⟩
    rw [startQuestLoop]
    simp [hz]
  | succ n ih =>
    intro batch hn
    have hlt : batch < (quest.heroes.length + config.maxQuestGroupSize - 1) /
        config.maxQuestGroupSize := by omega
    rw [ceil_lt_iff _ _ _ hK] at hlt
    have hz : ¬ (slice quest.heroes (batch * config.maxQuestGroupSize)
        (batch * config.maxQuestGroupSize + config.maxQuestGroupSize)).length = 0 := by
      rw [slice_length_eq_zero_iff _ _ _ hK]; omega
    obtain ⟨m, hm, hrec⟩ := ih (batch + 1) (by omega)
    rw [startQuestLoop]
    simp only [hz, if_false]
    rcases startQuestBatch_cases config (env batch) quest
      (slice quest.heroes (batch * config.maxQuestGroupSize)
        (batch * config.maxQuestGroupSize + config.maxQuestGroupSize)) with hb | hb | hb
    · rw [hb]
      exact ⟨0, Nat.zero_le _, by simp⟩
    · rw [hb]
      refine ⟨m + 1, by omega, ?_⟩
      simp only [hrec, List.range'_succ, List.map_cons, List.singleton_append]
    · rw [hb]
      exact ⟨1, by omega, by simp [List.range'_succ]⟩

theorem startQuest_ne_threw (config : Config) (env : Nat → CallEnv) (quest : QuestRequest) :
    (startQuest config env quest).2 ≠ .threw := by
  unfold startQuest
  rcases startQuestLoop config env quest 0 with ⟨t, o⟩
  cases o <;> simp

theorem startQuest_issued_range (config : Config) (env : Nat → CallEnv)
    (quest : QuestRequest) (hK : 1 ≤ config.maxQuestGroupSize) :
    ∃ m, m ≤ (quest.heroes.length + config.maxQuestGroupSize - 1) /
        config.maxQuestGroupSize ∧
      (startQuest config env quest).1 =
        (List.range' 0 m).map (fun b =>
            Tx.startQuest (slice quest.heroes (b * config.maxQuestGroupSize)
              (b * config.maxQuestGroupSize + config.maxQuestGroupSize))
              quest.address config.questAttempts quest.level) := by
  obtain ⟨m, hm, hrec⟩ := startQuestLoop_batches config env quest hK _ 0 rfl
  refine ⟨m, by simpa using hm, ?_⟩
  unfold startQuest
  rw [← hrec]
  rcases startQuestLoop config env quest 0 with ⟨t, o⟩
  cases o <;> rfl

theorem consumeItem_trace_sublist (env : CallEnv) (itemAddress : String)
    (heroID : Option Nat) :
    (consumeItem env itemAddress heroID).1.Sublist [Tx.consumeItem itemAddress heroID] := by
  unfold consumeItem
  by_cases hm : env.metaData = false
  · simp [hm]
  · simp only [hm, if_false]
    cases tryTransaction env.tx <;> exact List.Sublist.refl _

theorem staminaMapper_trace_sublist (minStamina : Nat) (heroes : List Nat)
    (consumeEnv : Nat → CallEnv) (getCurrentStamina : Nat → Option Nat)
    (value index a : Nat) (hget : heroes[index]? = some a)
    (hv : getCurrentStamina a = some value) :
    (staminaMapper minStamina heroes consumeEnv value index).1.Sublist
      (([a].filter (lowStamina getCurrentStamina minStamina)).map
        (fun h => Tx.consumeItem staminaVial (some h))) := by
  unfold staminaMapper
  simp only [hget]
  by_cases hge : value ≥ minStamina
  · simp [hge]
  · have hlow : lowStamina getCurrentStamina minStamina a = true := by
      simp [lowStamina, hv]; omega
    simp only [hge, if_false, List.filter_cons, hlow, if_true, List.filter_nil, List.map_cons,
      List.map_nil]
    have hs := consumeItem_trace_sublist (consumeEnv index) staminaVial (some a)
    rcases hc : consumeItem (consumeEnv index) staminaVial (some a) with ⟨tc, oc⟩
    rw [hc] at hs
    cases oc <;> exact hs

theorem bluebirdMap_staminaMapper_sublist (minStamina : Nat) (consumeEnv : Nat → CallEnv)
    (getCurrentStamina : Nat → Option Nat) (suf : List Nat) :
    ∀ (pre : List Nat) (results : List Nat),
      suf.map getCurrentStamina = results.map some →
      (bluebirdMap (staminaMapper minStamina (pre ++ suf) consumeEnv) pre.length
        results).1.Sublist
        ((suf.filter (lowStamina getCurrentStamina minStamina)).map
          (fun h => Tx.consumeItem staminaVial (some h))) := by
  induction suf with
  | nil =>
    intro pre results hres
    have : results = [] := by simpa using hres.symm
    subst this
    simp [bluebirdMap]
  | cons a suf ih =>
    intro pre results hres
    cases results with
    | nil => simp at hres
    | cons v results =>
      simp only [List.map_cons, List.cons.injEq] at hres
      obtain ⟨hv, hrest⟩ := hres
      have hget : (pre ++ a :: suf)[pre.length]? = some a := by
        rw [List.getElem?_append_right (le_refl _)]
        simp
      have hpre : pre ++ a :: suf = (pre ++ [a]) ++ suf := by simp
      have hrec := ih (pre ++ [a]) results hrest
      rw [← hpre] at hrec
      have hlen : (pre ++ [a]).length = pre.length + 1 := by simp
      rw [hlen] at hrec
      have hm := staminaMapper_trace_sublist minStamina (pre ++ a :: suf) consumeEnv
        getCurrentStamina v pre.length a hget hv
      have hsplit : ((a :: suf).filter (lowStamina getCurrentStamina minStamina)).map
          (fun h => Tx.consumeItem staminaVial (some h)) =
          (([a].filter (lowStamina getCurrentStamina minStamina)).map
            (fun h => Tx.consumeItem staminaVial (some h))) ++
          ((suf.filter (lowStamina getCurrentStamina minStamina)).map
            (fun h => Tx.consumeItem staminaVial (some h))) := by
        rw [← List.map_append, ← List.filter_append]
        rfl
      rw [hsplit]
      simp only [bluebirdMap]
      rcases hmv : staminaMapper minStamina (pre ++ a :: suf) consumeEnv v pre.length
        with ⟨tm, om⟩
      rcases hrv : bluebirdMap (staminaMapper minStamina (pre ++ a :: suf) consumeEnv)
        (pre.length + 1) results with ⟨tr, orr⟩
      rw [hmv] at hm
      rw [hrv] at hrec
      simp only at hm hrec
      cases om with
      | exited =>
        simpa using hm.append (List.nil_sublist _)
      | threw => cases orr <;> exact hm.append hrec
      | returned b => cases orr <;> exact hm.append hrec

theorem getHeroesWithGoodStamina_trace_sublist (config : Config)
    (getCurrentStamina : Nat → Option Nat) (consumeEnv : Nat → CallEnv)
    (questingHeroes : List Nat) (quest : QuestDefinition) (professional : Bool) :
    (getHeroesWithGoodStamina config getCurrentStamina consumeEnv questingHeroes quest
      professional).1.Sublist
      (((quest.professionHeroes.filter (fun h => !questingHeroes.contains h)).filter
          (lowStamina getCurrentStamina config.consumeStaminaVialIfMinStamina)).map
          (fun h => Tx.consumeItem staminaVial (some h))) := by
  unfold getHeroesWithGoodStamina
  simp only
  cases hp : promiseAll ((quest.professionHeroes.filter
      (fun h => !questingHeroes.contains h)).map (fun hero => getCurrentStamina hero)) with
  | none => exact List.nil_sublist _
  | some results =>
    simp only
    have hmap := promiseAll_eq_some _ _ hp
    have hb := bluebirdMap_staminaMapper_sublist config.consumeStaminaVialIfMinStamina
      consumeEnv getCurrentStamina
      (quest.professionHeroes.filter (fun h => !questingHeroes.contains h)) [] results hmap
    simp only [List.nil_append, List.length_nil] at hb
    rcases hbv : bluebirdMap (staminaMapper config.consumeStaminaVialIfMinStamina
      (quest.professionHeroes.filter (fun h => !questingHeroes.contains h)) consumeEnv) 0
      results with ⟨tb, ob⟩
    rw [hbv] at hb
    cases ob <;> exact hb

/-! ## Claims -/

/-- C1 (amended). For every ready list of length `N` and every group size `K ≥ 1`,
whatever the calls answer, `startQuest` ends without throwing, every start transaction it
issues is for a non-empty batch of at most `K` actors, it issues at most `ceil(N/K)` of
them (none when `N = 0`), and the batches concatenated in the order of issue are a prefix
of the ready list. When the metadata fetch and the start transaction of every batch
succeed, it returns, the start transactions are exactly `ceil(N/K)`, and the batches
concatenated are the ready list. -/
theorem startQuest_batches (config : Config) (env : Nat → CallEnv)
    (quest : QuestRequest) (hK : 1 ≤ config.maxQuestGroupSize) :
    (startQuest config env quest).2 ≠ .threw ∧
    (∀ tx ∈ (startQuest config env quest).1, ∃ questingGroup,
      tx = Tx.startQuest questingGroup quest.address config.questAttempts quest.level ∧
      questingGroup ≠ [] ∧ questingGroup.length ≤ config.maxQuestGroupSize) ∧
    (quest.heroes.length = 0 → (startQuest config env quest).1 = []) ∧
    (startQuest config env quest).1.length ≤
      (quest.heroes.length + config.maxQuestGroupSize - 1) / config.maxQuestGroupSize ∧
    (startedGroups (startQuest config env quest).1).flatten <+: quest.heroes ∧
    ((∀ i, (env i).succeeds = true) →
      (startQuest config env quest).2 = .returned () ∧
      (startQuest config env quest).1.length =
        (quest.heroes.length + config.maxQuestGroupSize - 1) / config.maxQuestGroupSize ∧
      quest.heroes.length ≤
        (startQuest config env quest).1.length * config.maxQuestGroupSize ∧
      (startQuest config env quest).1.length * config.maxQuestGroupSize <
        quest.heroes.length + config.maxQuestGroupSize ∧
      (startedGroups (startQuest config env quest).1).flatten = quest.heroes) := by
  have hle : quest.heroes.length ≤
      (quest.heroes.length + config.maxQuestGroupSize - 1) / config.maxQuestGroupSize *
        config.maxQuestGroupSize := by
    by_contra hc
    have := (ceil_lt_iff quest.heroes.length config.maxQuestGroupSize
      ((quest.heroes.length + config.maxQuestGroupSize - 1) / config.maxQuestGroupSize)
      hK).2 (by omega)
    omega
  have hlt : (quest.heroes.length + config.maxQuestGroupSize - 1) / config.maxQuestGroupSize *
      config.maxQuestGroupSize < quest.heroes.length + config.maxQuestGroupSize := by
    have := Nat.div_mul_le_self (quest.heroes.length + config.maxQuestGroupSize - 1)
      config.maxQuestGroupSize
    omega
  obtain ⟨m, hm, ht⟩ := startQuest_issued_range config env quest hK
  refine ⟨startQuest_ne_threw config env quest, ?_, ?_, ?_, ?_, ?_⟩
  · intro tx htx
    rw [ht] at htx
    simp only [List.mem_map, List.mem_range'_1] at htx
    obtain ⟨b, ⟨_, hb⟩, rfl⟩ := htx
    refine ⟨_, rfl, ?_, ?_⟩
    · have hb2 := (ceil_lt_iff _ _ _ hK).1 (show b <
        (quest.heroes.length + config.maxQuestGroupSize - 1) / config.maxQuestGroupSize by
          omega)
      intro hnil
      have hz := (slice_length_eq_zero_iff quest.heroes config.maxQuestGroupSize b hK).1
        (by simp [hnil])
      omega
    · simp only [slice, List.length_take, List.length_drop]
      omega
  · intro h0
    have hc : (quest.heroes.length + config.maxQuestGroupSize - 1) / config.maxQuestGroupSize
        = 0 := by
      rw [h0]
      apply Nat.div_eq_of_lt
      omega
    have hm0 : m = 0 := by omega
    rw [ht, hm0]
    rfl
  · rw [ht]
    simpa using hm
  · rw [ht, startedGroups_map_startQuest, flatten_slices]
    exact List.take_prefix _ _
  · intro henv
    rw [startQuest_of_succeeds config env quest hK henv]
    refine ⟨rfl, by simp, by simpa using hle, by simpa using hlt, ?_⟩
    simp only
    rw [startedGroups_map_startQuest, flatten_slices]
    exact List.take_of_length_le hle

/-- Three ready actors in groups of two, every call succeeding: two start transactions,
whose groups concatenate to the ready list. -/
theorem startQuest_batches_witness :
    1 ≤ exampleConfig.maxQuestGroupSize ∧
    (∀ i : Nat, ((fun _ => succeedingCall) i : CallEnv).succeeds = true) ∧
    (startQuest exampleConfig (fun _ => succeedingCall) exampleRequest).2 = .returned () ∧
    (startQuest exampleConfig (fun _ => succeedingCall) exampleRequest).1.length = 2 ∧
    (startedGroups (startQuest exampleConfig (fun _ => succeedingCall) exampleRequest).1).flatten
      = [11, 12, 13] :=
  have h := (startQuest_batches exampleConfig (fun _ => succeedingCall)
    exampleRequest (by decide)).2.2.2.2.2 (fun _ => rfl)
  ⟨by decide, fun _ => rfl, h.1, h.2.1, h.2.2.2.2⟩

/-- Three ready actors in groups of two (`ceil(3/2) = 2`): when the metadata fetch of the
first batch is rejected `startQuest` returns without a start transaction, and when the
first start transaction is mined with status 0 the process exits after one. -/
theorem startQuest_stops_at_failed_batch :
    exampleRequest.heroes.length = 3 ∧ exampleConfig.maxQuestGroupSize = 2 ∧
    startQuest exampleConfig (fun _ => rejectedFetch) exampleRequest = ([], .returned ()) ∧
    startQuest exampleConfig (fun i => if i = 0 then revertedCall else succeedingCall)
      exampleRequest = ([.startQuest [11, 12] "0xF" 3 1], .exited) ∧
    ¬ ((startQuest exampleConfig (fun _ => rejectedFetch) exampleRequest).1.length =
      (exampleRequest.heroes.length + exampleConfig.maxQuestGroupSize - 1) /
        exampleConfig.maxQuestGroupSize) := by
  have h1 : startQuest exampleConfig (fun _ => rejectedFetch) exampleRequest =
      ([], .returned ()) := by
    rw [startQuest, startQuestLoop]; decide
  refine ⟨rfl, rfl, h1, ?_, ?_⟩
  · rw [startQuest, startQuestLoop]; decide
  · rw [h1]; decide

/-- C2. For every list of active quests and every current time, `runningQuests` and
`doneQuests` partition the active quests: each is the sublist selected by the comparison
of `completeAtTime` with the current time (`>=` for running, `<` for done), every active
quest is in exactly one of them, with its multiplicity, and neither contains anything
else. -/
theorem runningQuests_doneQuests_partition (heap : Nat → ActiveQuest)
    (activeQuests : List Nat) (now : Nat) :
    runningQuests heap activeQuests now =
      activeQuests.filter (fun quest => decide (now ≤ (heap quest).completeAtTime)) ∧
    doneQuests heap activeQuests now =
      activeQuests.filter (fun quest => decide ((heap quest).completeAtTime < now)) ∧
    (∀ quest, quest ∈ activeQuests →
      ((quest ∈ runningQuests heap activeQuests now ∧
          quest ∉ doneQuests heap activeQuests now) ∨
        (quest ∉ runningQuests heap activeQuests now ∧
          quest ∈ doneQuests heap activeQuests now))) ∧
    (∀ quest, (runningQuests heap activeQuests now).count quest +
      (doneQuests heap activeQuests now).count quest = activeQuests.count quest) ∧
    (∀ quest, quest ∈ runningQuests heap activeQuests now → quest ∈ activeQuests) ∧
    (∀ quest, quest ∈ doneQuests heap activeQuests now → quest ∈ activeQuests) ∧
    (∀ quest, quest ∈ activeQuests →
      (quest ∈ runningQuests heap activeQuests now ↔ now ≤ (heap quest).completeAtTime) ∧
      (quest ∈ doneQuests heap activeQuests now ↔ (heap quest).completeAtTime < now)) := by
  refine ⟨rfl, doneQuests_eq_filter heap activeQuests now, ?_, ?_, ?_, ?_, ?_⟩
  · intro quest hq
    simp only [mem_runningQuests, mem_doneQuests]
    by_cases hc : now ≤ (heap quest).completeAtTime
    · left; exact ⟨⟨hq, hc⟩, fun h => by omega⟩
    · right; exact ⟨fun h => hc h.2, hq, by omega⟩
  · exact count_running_add_done heap activeQuests now
  · intro quest h; exact ((mem_runningQuests _ _ _ _).1 h).1
  · intro quest h; exact ((mem_doneQuests _ _ _ _).1 h).1
  · intro quest hq
    simp only [mem_runningQuests, mem_doneQuests]
    exact ⟨⟨fun h => h.2, fun h => ⟨hq, h⟩⟩, ⟨fun h => h.2, fun h => ⟨hq, h⟩⟩⟩

/-- C3. Whatever the quest definition, the busy list and the answers of the stamina
reads and of the consume calls, a list returned by `getHeroesWithGoodStamina` contains
no actor of the busy list. -/
theorem getHeroesWithGoodStamina_excludes_busy (config : Config)
    (getCurrentStamina : Nat → Option Nat) (consumeEnv : Nat → CallEnv)
    (questingHeroes : List Nat) (quest : QuestDefinition) (professional : Bool)
    (t : List Tx) (ready : List Nat)
    (h : getHeroesWithGoodStamina config getCurrentStamina consumeEnv questingHeroes quest
      professional = (t, .returned ready)) :
    ∀ hero, hero ∈ ready → hero ∉ questingHeroes := by
  intro hero hmem
  rw [getHeroesWithGoodStamina_returned _ _ _ _ _ _ _ _ h] at hmem
  have := (List.mem_filter.1 (List.mem_filter.1 hmem).1).2
  simpa using this

/-- Actors 11, 12, 13 with 12 busy and 11 low on stamina: the list returned is
`[11, 13]`. -/
theorem getHeroesWithGoodStamina_excludes_busy_witness :
    getHeroesWithGoodStamina exampleConfig (fun h => if h = 11 then some 3 else some 20)
      (fun _ => succeedingCall) [12]
      { name := "Foraging", contractAddress := "0xF", level := 1,
        professionHeroes := [11, 12, 13] } true =
      ([.consumeItem staminaVial (some 11)], .returned [11, 13]) ∧
    ∀ hero, hero ∈ [11, 13] → hero ∉ [12] :=
  ⟨by decide,
   getHeroesWithGoodStamina_excludes_busy exampleConfig
     (fun h => if h = 11 then some 3 else some 20) (fun _ => succeedingCall) [12]
     { name := "Foraging", contractAddress := "0xF", level := 1,
       professionHeroes := [11, 12, 13] } true
     [.consumeItem staminaVial (some 11)] [11, 13] (by decide)⟩

/-- C5. For every xp and every level that indexes `xplimits`, the level-evaluation step
of `checkForQuests` halts the loop exactly when `xp >= xplimits[level] - 250`;
`xplimits[3]` is 4000, so at level 3 an xp of 3751 halts and an xp of 3749 does not. -/
theorem levelEvaluation_halts_iff (config : Config) (env : TickEnv) (t : List Tx)
    (xp level : Nat) (hlevel : level < xplimits.length)
    (hs : env.heroStats = some (xp, level)) :
    ((levelEvaluation config env t).2 = .halted ↔
      (xplimits[level] : Int) - 250 ≤ (xp : Int)) ∧
    (levelCondition xp level = true ↔ (xplimits[level] : Int) - 250 ≤ (xp : Int)) ∧
    xplimits[3]? = some 4000 ∧
    levelCondition 3751 3 = true ∧ levelCondition 3749 3 = false := by
  have hc : levelCondition xp level = true ↔ (xplimits[level] : Int) - 250 ≤ (xp : Int) := by
    unfold levelCondition
    rw [List.getElem?_eq_getElem hlevel]
    simp
  refine ⟨?_, hc, by decide, by decide, by decide⟩
  rw [levelEvaluation_halted_iff config env t xp level hs]
  exact hc

/-- At level 3 with 3751 xp the level-evaluation step halts. -/
theorem levelEvaluation_halts_iff_witness :
    (3 : Nat) < xplimits.length ∧
    ((levelEvaluation exampleConfig
        { metaData := true, activeQuests := some [], heap := fun _ => ⟨[], 0⟩, dateNow := 0,
          completeEnv := fun _ => succeedingCall, heroStats := some (3751, 3),
          activeQuests2 := some [], getCurrentStamina := fun _ _ => some 25,
          consumeEnv := fun _ _ => succeedingCall,
          startEnv := fun _ _ => succeedingCall } []).2 = .halted ↔
      ((4000 : Nat) : Int) - 250 ≤ ((3751 : Nat) : Int)) :=
  ⟨by decide,
   (levelEvaluation_halts_iff exampleConfig
      { metaData := true, activeQuests := some [], heap := fun _ => ⟨[], 0⟩, dateNow := 0,
        completeEnv := fun _ => succeedingCall, heroStats := some (3751, 3),
        activeQuests2 := some [], getCurrentStamina := fun _ _ => some 25,
        consumeEnv := fun _ _ => succeedingCall,
        startEnv := fun _ _ => succeedingCall } [] 3751 3 (by decide) rfl).1⟩

/-- C6. `tryTransaction` returns a receipt exactly when the submission and the wait both
succeed and the status of the receipt is 1; a receipt with another status ends like a
rejected submission or wait (and like the timer): the process has exited, nothing is
returned and nothing is thrown to the caller. -/
theorem tryTransaction_returns_iff (run : TxRun) (receipt : Receipt) :
    (tryTransaction run = .returned receipt ↔ run = .mined receipt ∧ receipt.status = 1) ∧
    tryTransaction (.mined receipt) =
      (if receipt.status = 1 then .returned receipt else .exited) ∧
    tryTransaction .submitThrows = .exited ∧
    tryTransaction .waitThrows = .exited ∧
    tryTransaction .timedOut = .exited ∧
    tryTransaction run ≠ .threw := by
  refine ⟨?_, ?_, rfl, rfl, rfl, ?_⟩
  · cases run with
    | submitThrows => simp [tryTransaction, tryTransactionBody]
    | waitThrows => simp [tryTransaction, tryTransactionBody]
    | timedOut => simp [tryTransaction, tryTransactionBody]
    | mined r =>
      by_cases hs : r.status = 1
      · simp [tryTransaction, tryTransactionBody, hs]
        intro h; subst h; exact hs
      · simp [tryTransaction, tryTransactionBody, hs]
        intro h; subst h; exact hs
  · by_cases hs : receipt.status = 1 <;> simp [tryTransaction, tryTransactionBody, hs]
  · cases run with
    | submitThrows => simp [tryTransaction, tryTransactionBody]
    | waitThrows => simp [tryTransaction, tryTransactionBody]
    | timedOut => simp [tryTransaction, tryTransactionBody]
    | mined r =>
      by_cases hs : r.status = 1 <;> simp [tryTransaction, tryTransactionBody, hs]

/-- C10. For a level that is not an index of the 22 entries of `xplimits` (level >= 22)
the condition of the level check is false for every xp, so the level-evaluation step
does not halt the loop; for level 0 (`xplimits[0]` is 0) the condition is true for every
xp and the step halts. -/
theorem levelCondition_outside_table (config : Config) (env : TickEnv) (t : List Tx)
    (xp level : Nat) (hlevel : 22 ≤ level) (hs : env.heroStats = some (xp, level)) :
    xplimits.length = 22 ∧
    xplimits[level]? = none ∧
    levelCondition xp level = false ∧
    (levelEvaluation config env t).2 ≠ .halted ∧
    xplimits[0]? = some 0 ∧
    (∀ xp0 : Nat, levelCondition xp0 0 = true) ∧
    (∀ (xp0 : Nat) (env0 : TickEnv), env0.heroStats = some (xp0, 0) →
      levelEvaluation config env0 t = (t, .halted)) := by
  have h0 : ∀ xp0 : Nat, levelCondition xp0 0 = true := by
    intro xp0
    simp [levelCondition, xplimits]
    omega
  refine ⟨rfl, ?_, levelCondition_eq_false_of_ge xp level hlevel, ?_, rfl, h0, ?_⟩
  · apply List.getElem?_eq_none
    simpa [xplimits] using hlevel
  · intro hh
    have := (levelEvaluation_halted_iff config env t xp level hs).1 hh
    rw [levelCondition_eq_false_of_ge xp level hlevel] at this
    exact Bool.noConfusion this
  · intro xp0 env0 hs0
    simp [levelEvaluation, hs0, h0 xp0]

/-- At level 22 the level-evaluation step does not halt, whatever the xp. -/
theorem levelCondition_outside_table_witness :
    (22 : Nat) ≤ 22 ∧
    levelCondition 1000000 22 = false ∧
    (levelEvaluation exampleConfig
        { metaData := true, activeQuests := some [], heap := fun _ => ⟨[], 0⟩, dateNow := 0,
          completeEnv := fun _ => succeedingCall, heroStats := some (1000000, 22),
          activeQuests2 := some [], getCurrentStamina := fun _ _ => some 25,
          consumeEnv := fun _ _ => succeedingCall,
          startEnv := fun _ _ => succeedingCall } []).2 ≠ .halted :=
  have h := levelCondition_outside_table exampleConfig
      { metaData := true, activeQuests := some [], heap := fun _ => ⟨[], 0⟩, dateNow := 0,
        completeEnv := fun _ => succeedingCall, heroStats := some (1000000, 22),
        activeQuests2 := some [], getCurrentStamina := fun _ _ => some 25,
        consumeEnv := fun _ _ => succeedingCall,
        startEnv := fun _ _ => succeedingCall } [] 1000000 22 (by decide) rfl
  ⟨by decide, h.2.2.1, h.2.2.2.1⟩

/-- C9 (amended). A list returned by `getHeroesWithGoodStamina` is the `professionHeroes`
list of the quest with the busy actors and the actor 0 removed (0 is falsy and is
dropped by the last filter), every other actor kept whatever its stamina, in the same
relative order; and the function returns this list when every stamina read, metadata
fetch and consume transaction succeeds. -/
theorem getHeroesWithGoodStamina_result (config : Config)
    (getCurrentStamina : Nat → Option Nat) (consumeEnv : Nat → CallEnv)
    (questingHeroes : List Nat) (quest : QuestDefinition) (professional : Bool)
    (hread : ∀ h ∈ quest.professionHeroes, h ∉ questingHeroes →
      (getCurrentStamina h).isSome = true)
    (henv : ∀ i, (consumeEnv i).succeeds = true) :
    (getHeroesWithGoodStamina config getCurrentStamina consumeEnv questingHeroes quest
      professional).2 =
      .returned ((quest.professionHeroes.filter (fun h => !questingHeroes.contains h)).filter
        (fun h => decide (h ≠ 0))) ∧
    (∀ (getCurrentStamina2 : Nat → Option Nat) (consumeEnv2 : Nat → CallEnv)
        (t : List Tx) (ready : List Nat),
      getHeroesWithGoodStamina config getCurrentStamina2 consumeEnv2 questingHeroes quest
        professional = (t, .returned ready) →
      ready = (quest.professionHeroes.filter (fun h => !questingHeroes.contains h)).filter
        (fun h => decide (h ≠ 0))) := by
  constructor
  · rw [getHeroesWithGoodStamina_of_succeeds config getCurrentStamina consumeEnv
      questingHeroes quest professional hread henv]
  · intro g2 c2 t ready h
    exact getHeroesWithGoodStamina_returned _ _ _ _ _ _ _ _ h

/-- Actors 0, 11, 12, 13 with 12 busy: the list returned is `[11, 13]`. -/
theorem getHeroesWithGoodStamina_result_witness :
    (∀ h ∈ ([0, 11, 12, 13] : List Nat), h ∉ ([12] : List Nat) →
      ((fun _ => some 20 : Nat → Option Nat) h).isSome = true) ∧
    (∀ i : Nat, ((fun _ => succeedingCall) i : CallEnv).succeeds = true) ∧
    (getHeroesWithGoodStamina exampleConfig (fun _ => some 20) (fun _ => succeedingCall) [12]
      { name := "Foraging", contractAddress := "0xF", level := 1,
        professionHeroes := [0, 11, 12, 13] } true).2 = .returned [11, 13] :=
  ⟨fun _ _ _ => rfl, fun _ => rfl,
   (getHeroesWithGoodStamina_result exampleConfig (fun _ => some 20)
      (fun _ => succeedingCall) [12]
      { name := "Foraging", contractAddress := "0xF", level := 1,
        professionHeroes := [0, 11, 12, 13] } true (fun _ _ _ => rfl) (fun _ => rfl)).1⟩

/-- With `professionHeroes = [0, 7]`, nobody busy and every call succeeding, the list
returned is `[7]`: the actor 0 is not busy and is not kept. -/
theorem getHeroesWithGoodStamina_drops_zero :
    getHeroesWithGoodStamina exampleConfig (fun _ => some 20) (fun _ => succeedingCall) []
      { name := "Foraging", contractAddress := "0xF", level := 1,
        professionHeroes := [0, 7] } true = ([], .returned [7]) ∧
    ([0, 7] : List Nat).filter (fun h => !([] : List Nat).contains h) = [0, 7] ∧
    ([7] : List Nat) ≠ [0, 7] := by
  decide

/-- C4 (amended). Whatever the calls answer, `getHeroesWithGoodStamina` issues only
consume-item transactions with the fixed item address, each for an eligible non-busy
actor whose stamina reading is below the minimum, none for an actor whose reading is at
or above the minimum, and at most one per listing of an actor in `professionHeroes`; and
every eligible non-busy actor other than 0 is in any list it returns. When every stamina
read, metadata fetch and consume transaction succeeds, the consume transactions for an
eligible non-busy actor below the minimum are exactly one per listing of the actor
(exactly one when it is listed once), and the list is returned. -/
theorem getHeroesWithGoodStamina_consumes (config : Config)
    (getCurrentStamina : Nat → Option Nat) (consumeEnv : Nat → CallEnv)
    (questingHeroes : List Nat) (quest : QuestDefinition) (professional : Bool) :
    (∀ tx ∈ (getHeroesWithGoodStamina config getCurrentStamina consumeEnv questingHeroes
        quest professional).1,
      ∃ hero stamina, tx = Tx.consumeItem staminaVial (some hero) ∧
        hero ∈ quest.professionHeroes ∧ hero ∉ questingHeroes ∧
        getCurrentStamina hero = some stamina ∧
        stamina < config.consumeStaminaVialIfMinStamina) ∧
    (∀ hero stamina, getCurrentStamina hero = some stamina →
      config.consumeStaminaVialIfMinStamina ≤ stamina →
      ∀ itemAddress, Tx.consumeItem itemAddress (some hero) ∉
        (getHeroesWithGoodStamina config getCurrentStamina consumeEnv questingHeroes quest
          professional).1) ∧
    (∀ hero, (getHeroesWithGoodStamina config getCurrentStamina consumeEnv questingHeroes
        quest professional).1.count (Tx.consumeItem staminaVial (some hero)) ≤
        quest.professionHeroes.count hero) ∧
    (∀ ready, (getHeroesWithGoodStamina config getCurrentStamina consumeEnv questingHeroes
        quest professional).2 = .returned ready →
      ∀ hero ∈ quest.professionHeroes, hero ∉ questingHeroes → hero ≠ 0 → hero ∈ ready) ∧
    ((∀ h ∈ quest.professionHeroes, h ∉ questingHeroes →
        (getCurrentStamina h).isSome = true) →
      (∀ i, (consumeEnv i).succeeds = true) →
      (∀ hero stamina, hero ∉ questingHeroes → getCurrentStamina hero = some stamina →
        stamina < config.consumeStaminaVialIfMinStamina →
        (getHeroesWithGoodStamina config getCurrentStamina consumeEnv questingHeroes quest
          professional).1.count (Tx.consumeItem staminaVial (some hero)) =
          quest.professionHeroes.count hero) ∧
      (∃ ready, (getHeroesWithGoodStamina config getCurrentStamina consumeEnv questingHeroes
        quest professional).2 = .returned ready)) := by
  have hinj : Function.Injective (fun h : Nat => Tx.consumeItem staminaVial (some h)) := by
    intro a b hab
    simpa using hab
  have hlow : ∀ hero, lowStamina getCurrentStamina config.consumeStaminaVialIfMinStamina
      hero = true ↔ ∃ stamina, getCurrentStamina hero = some stamina ∧
        stamina < config.consumeStaminaVialIfMinStamina := by
    intro hero
    unfold lowStamina
    cases getCurrentStamina hero with
    | none => simp
    | some v => simp
  have hsub := getHeroesWithGoodStamina_trace_sublist config getCurrentStamina consumeEnv
    questingHeroes quest professional
  have hshape : ∀ tx ∈ (getHeroesWithGoodStamina config getCurrentStamina consumeEnv
      questingHeroes quest professional).1,
      ∃ hero stamina, tx = Tx.consumeItem staminaVial (some hero) ∧
        hero ∈ quest.professionHeroes ∧ hero ∉ questingHeroes ∧
        getCurrentStamina hero = some stamina ∧
        stamina < config.consumeStaminaVialIfMinStamina := by
    intro tx htx
    have htx2 := hsub.subset htx
    simp only [List.mem_map, List.mem_filter] at htx2
    obtain ⟨hero, ⟨⟨hmem, hbusy⟩, hl⟩, rfl⟩ := htx2
    obtain ⟨stamina, hs, hlt⟩ := (hlow hero).1 hl
    exact ⟨hero, stamina, rfl, hmem, by simpa using hbusy, hs, hlt⟩
  refine ⟨hshape, ?_, ?_, ?_, ?_⟩
  · intro hero stamina hs hge itemAddress hmem
    obtain ⟨h, s2, heq, _, _, hs2, hlt⟩ := hshape _ hmem
    have hh : hero = h := by
      simp only [Tx.consumeItem.injEq, Option.some.injEq] at heq
      exact heq.2
    subst hh
    rw [hs] at hs2
    have : stamina = s2 := by simpa using hs2
    omega
  · intro hero
    refine le_trans (hsub.count_le _) ?_
    rw [List.count_map_of_injective _ _ hinj]
    exact ((List.filter_sublist _).trans (List.filter_sublist _)).count_le _
  · intro ready hret hero hmem hbusy h0
    have hfull : getHeroesWithGoodStamina config getCurrentStamina consumeEnv questingHeroes
        quest professional =
        ((getHeroesWithGoodStamina config getCurrentStamina consumeEnv questingHeroes quest
          professional).1, .returned ready) := by
      rw [← hret]
    rw [getHeroesWithGoodStamina_returned _ _ _ _ _ _ _ _ hfull]
    simp only [List.mem_filter]
    exact ⟨⟨hmem, by simpa using hbusy⟩, by simpa using h0⟩
  · intro hread henv
    rw [getHeroesWithGoodStamina_of_succeeds config getCurrentStamina consumeEnv
      questingHeroes quest professional hread henv]
    refine ⟨?_, _, rfl⟩
    intro hero stamina hbusy hs hlt
    simp only
    rw [List.count_map_of_injective _ _ hinj]
    rw [List.count_filter ((hlow hero).2 ⟨stamina, hs, hlt⟩)]
    rw [List.count_filter (by simpa using hbusy)]

/-- Actors 11, 12, 13 with 12 busy and only 11 below the minimum: exactly one consume
transaction is issued for 11. -/
theorem getHeroesWithGoodStamina_consumes_witness :
    (∀ h ∈ ([11, 12, 13] : List Nat), h ∉ ([12] : List Nat) →
      ((fun h => if h = 11 then some 3 else some 20 : Nat → Option Nat) h).isSome = true) ∧
    (∀ i : Nat, ((fun _ => succeedingCall) i : CallEnv).succeeds = true) ∧
    (getHeroesWithGoodStamina exampleConfig (fun h => if h = 11 then some 3 else some 20)
      (fun _ => succeedingCall) [12]
      { name := "Foraging", contractAddress := "0xF", level := 1,
        professionHeroes := [11, 12, 13] } true).1.count
        (Tx.consumeItem staminaVial (some 11)) = 1 :=
  ⟨by decide, fun _ => rfl,
   ((getHeroesWithGoodStamina_consumes exampleConfig
      (fun h => if h = 11 then some 3 else some 20) (fun _ => succeedingCall) [12]
      { name := "Foraging", contractAddress := "0xF", level := 1,
        professionHeroes := [11, 12, 13] } true).2.2.2.2 (by decide) (fun _ => rfl)).1
      11 3 (by decide) rfl (by decide)⟩

/-- With every actor below the minimum: for `[0]` a consume transaction is issued for 0
and 0 is not in the returned list; for `[5, 5]` two consume transactions are issued for
5; for `[5]` with a rejected metadata fetch none is issued and the function throws. -/
theorem getHeroesWithGoodStamina_consume_exceptions :
    getHeroesWithGoodStamina exampleConfig (fun _ => some 3) (fun _ => succeedingCall) []
      { name := "Foraging", contractAddress := "0xF", level := 1,
        professionHeroes := [0] } true =
      ([.consumeItem staminaVial (some 0)], .returned []) ∧
    getHeroesWithGoodStamina exampleConfig (fun _ => some 3) (fun _ => succeedingCall) []
      { name := "Foraging", contractAddress := "0xF", level := 1,
        professionHeroes := [5, 5] } true =
      ([.consumeItem staminaVial (some 5), .consumeItem staminaVial (some 5)],
        .returned [5, 5]) ∧
    getHeroesWithGoodStamina exampleConfig (fun _ => some 3) (fun _ => rejectedFetch) []
      { name := "Foraging", contractAddress := "0xF", level := 1,
        professionHeroes := [5] } true = ([], .threw) := by
  decide

/-- C8 (amended). `checkForQuests` classifies an active quest as running exactly when its
`completeAtTime` is not before the current time in seconds (`>=`) and as done exactly
when it is before it (`<`); a quest whose `completeAtTime` equals the current time is
running. When the metadata fetches and the transactions of the completions succeed, the
`completeQuest` transactions issued in the tick are one for each done quest (for its
first hero), in the order of the list, and no other. -/
theorem checkForQuests_completes_done (config : Config) (env : TickEnv)
    (activeQuests : List Nat) (hmeta : env.metaData = true)
    (hactive : env.activeQuests = some activeQuests)
    (henv : ∀ i, (env.completeEnv i).succeeds = true) :
    (∀ (heap : Nat → ActiveQuest) (quests : List Nat) (now quest : Nat), quest ∈ quests →
      (quest ∈ runningQuests heap quests now ↔ now ≤ (heap quest).completeAtTime) ∧
      (quest ∈ doneQuests heap quests now ↔ (heap quest).completeAtTime < now) ∧
      ((heap quest).completeAtTime = now →
        quest ∈ runningQuests heap quests now ∧ quest ∉ doneQuests heap quests now)) ∧
    (checkForQuests config env).1.filter Tx.isCompleteQuest =
      (doneQuests env.heap activeQuests (nowSeconds env.dateNow)).map
        (fun quest => Tx.completeQuest (env.heap quest).heroes[0]?) := by
  constructor
  · intro heap quests now quest hq
    simp only [mem_runningQuests, mem_doneQuests]
    refine ⟨⟨fun h => h.2, fun h => ⟨hq, h⟩⟩, ⟨fun h => h.2, fun h => ⟨hq, h⟩⟩, ?_⟩
    intro heq
    exact ⟨⟨hq, by omega⟩, fun h => by omega⟩
  · unfold checkForQuests
    simp only [hmeta, hactive, Bool.true_eq_false, if_false]
    rw [completeDoneQuests_of_succeeds env.heap env.completeEnv henv]
    simp only
    obtain ⟨rest, hrest, hno⟩ := levelEvaluation_rest config env
      ((doneQuests env.heap activeQuests (nowSeconds env.dateNow)).map
        (fun quest => Tx.completeQuest (env.heap quest).heroes[0]?))
    rw [hrest, List.filter_append]
    have h1 : ((doneQuests env.heap activeQuests (nowSeconds env.dateNow)).map
        (fun quest => Tx.completeQuest (env.heap quest).heroes[0]?)).filter
        Tx.isCompleteQuest =
        (doneQuests env.heap activeQuests (nowSeconds env.dateNow)).map
          (fun quest => Tx.completeQuest (env.heap quest).heroes[0]?) := by
      apply List.filter_eq_self.2
      intro tx htx
      obtain ⟨q, _, rfl⟩ := List.mem_map.1 htx
      rfl
    have h2 : rest.filter Tx.isCompleteQuest = [] := by
      apply List.filter_eq_nil_iff.2
      intro tx htx
      simp [hno tx htx]
    rw [h1, h2, List.append_nil]

/-- Two active quests, one completing at second 99 and one at second 100, checked at
second 100: one `completeQuest`, for the first hero of the first quest. -/
theorem checkForQuests_completes_done_witness :
    (true = true) ∧
    (∀ i : Nat, ((fun _ => succeedingCall) i : CallEnv).succeeds = true) ∧
    (checkForQuests exampleConfig
      { metaData := true, activeQuests := some [0, 1],
        heap := fun quest => if quest = 0 then ⟨[7, 8], 99⟩ else ⟨[9], 100⟩,
        dateNow := 100000, completeEnv := fun _ => succeedingCall,
        heroStats := some (3751, 3), activeQuests2 := some [],
        getCurrentStamina := fun _ _ => some 25, consumeEnv := fun _ _ => succeedingCall,
        startEnv := fun _ _ => succeedingCall }).1.filter Tx.isCompleteQuest =
      [Tx.completeQuest (some 7)] :=
  ⟨rfl, fun _ => rfl,
   (checkForQuests_completes_done exampleConfig
      { metaData := true, activeQuests := some [0, 1],
        heap := fun quest => if quest = 0 then ⟨[7, 8], 99⟩ else ⟨[9], 100⟩,
        dateNow := 100000, completeEnv := fun _ => succeedingCall,
        heroStats := some (3751, 3), activeQuests2 := some [],
        getCurrentStamina := fun _ _ => some 25, consumeEnv := fun _ _ => succeedingCall,
        startEnv := fun _ _ => succeedingCall } [0, 1] rfl rfl (fun _ => rfl)).2⟩

/-- A quest whose `completeAtTime` is 100, checked at second 100, is running and not
done, and the tick issues no `completeQuest`; and when the metadata fetch of a
completion is rejected, no `completeQuest` is issued for the two done quests. -/
theorem checkForQuests_boundary_is_running :
    ((fun _ => (⟨[7], 100⟩ : ActiveQuest)) 0).completeAtTime = 100 ∧
    nowSeconds 100000 = 100 ∧
    runningQuests (fun _ => ⟨[7], 100⟩) [0] (nowSeconds 100000) = [0] ∧
    doneQuests (fun _ => ⟨[7], 100⟩) [0] (nowSeconds 100000) = [] ∧
    checkForQuests exampleConfig
      { metaData := true, activeQuests := some [0], heap := fun _ => ⟨[7], 100⟩,
        dateNow := 100000, completeEnv := fun _ => succeedingCall,
        heroStats := some (3751, 3), activeQuests2 := some [],
        getCurrentStamina := fun _ _ => some 25, consumeEnv := fun _ _ => succeedingCall,
        startEnv := fun _ _ => succeedingCall } = ([], .halted) ∧
    doneQuests (fun _ => ⟨[7], 50⟩) [0, 1] (nowSeconds 100000) = [0, 1] ∧
    checkForQuests exampleConfig
      { metaData := true, activeQuests := some [0, 1], heap := fun _ => ⟨[7], 50⟩,
        dateNow := 100000, completeEnv := fun _ => rejectedFetch,
        heroStats := some (3751, 3), activeQuests2 := some [],
        getCurrentStamina := fun _ _ => some 25, consumeEnv := fun _ _ => succeedingCall,
        startEnv := fun _ _ => succeedingCall } = ([], .waiting) := by
  decide

/-- C7 (amended). In the start requests returned by `getQuestsToStart`, no actor of a
request is in the heroes list of an active quest; and when the `professionHeroes` lists of
the configured quest definitions are pairwise disjoint, no actor is in the heroes lists
of two different requests. -/
theorem getQuestsToStart_requests (config : Config)
    (getCurrentStamina : Nat → Nat → Option Nat) (consumeEnv : Nat → Nat → CallEnv)
    (activeQuests : List ActiveQuest) (t : List Tx) (questsToStart : List QuestRequest)
    (h : getQuestsToStart config getCurrentStamina consumeEnv activeQuests =
      (t, .returned questsToStart)) :
    (∀ request ∈ questsToStart, ∀ hero ∈ request.heroes, ∀ quest ∈ activeQuests,
      hero ∉ quest.heroes) ∧
    (config.quests.Pairwise
        (fun q1 q2 => ∀ hero ∈ q1.professionHeroes, hero ∉ q2.professionHeroes) →
      questsToStart.Pairwise (fun r1 r2 => ∀ hero ∈ r1.heroes, hero ∉ r2.heroes)) := by
  unfold getQuestsToStart at h
  have hreq := getQuestsToStartLoop_returned config getCurrentStamina consumeEnv
    (activeQuests.flatMap (fun q => q.heroes)) config.quests 0 t questsToStart h
  constructor
  · intro request hr hero hh quest hq hin
    rw [hreq] at hr
    obtain ⟨qd, _, rfl⟩ := List.mem_map.1 hr
    simp only [List.mem_filter] at hh
    have hnot := hh.1.2
    simp only [Bool.not_eq_true', List.contains_eq_any_beq, List.any_eq_false,
      beq_iff_eq] at hnot
    have hmem : hero ∈ activeQuests.flatMap (fun q => q.heroes) :=
      List.mem_flatMap.2 ⟨quest, hq, hin⟩
    exact hnot hero hmem rfl
  · intro hpair
    rw [hreq]
    apply List.Pairwise.map _ _ (List.Pairwise.filter _ hpair)
    intro q1 q2 h12 hero hh hh2
    simp only [List.mem_filter] at hh hh2
    exact h12 hero hh.1.1 hh2.1.1

/-- Two quest definitions with disjoint actors, actors 12 and 14 busy: the requests hold
11 and 13. -/
theorem getQuestsToStart_requests_witness :
    getQuestsToStart
      { quests := [{ name := "Foraging", contractAddress := "0xF", level := 1,
                     professionHeroes := [11, 12] },
                   { name := "Fishing", contractAddress := "0xA", level := 1,
                     professionHeroes := [13, 14] }],
        maxQuestGroupSize := 2, consumeStaminaVialIfMinStamina := 15, questAttempts := 3 }
      (fun _ _ => some 20) (fun _ _ => succeedingCall) [⟨[12, 14], 100⟩] =
      ([], .returned [⟨"Foraging", "0xF", true, [11], 1⟩, ⟨"Fishing", "0xA", true, [13], 1⟩]) ∧
    (∀ request ∈ ([⟨"Foraging", "0xF", true, [11], 1⟩, ⟨"Fishing", "0xA", true, [13], 1⟩] :
        List QuestRequest),
      ∀ hero ∈ request.heroes, ∀ quest ∈ ([⟨[12, 14], 100⟩] : List ActiveQuest),
        hero ∉ quest.heroes) :=
  ⟨by decide,
   (getQuestsToStart_requests
      { quests := [{ name := "Foraging", contractAddress := "0xF", level := 1,
                     professionHeroes := [11, 12] },
                   { name := "Fishing", contractAddress := "0xA", level := 1,
                     professionHeroes := [13, 14] }],
        maxQuestGroupSize := 2, consumeStaminaVialIfMinStamina := 15, questAttempts := 3 }
      (fun _ _ => some 20) (fun _ _ => succeedingCall) [⟨[12, 14], 100⟩] []
      [⟨"Foraging", "0xF", true, [11], 1⟩, ⟨"Fishing", "0xA", true, [13], 1⟩]
      (by decide)).1⟩

/-- Two quest definitions that both list the actor 11, no active quest: both start
requests of the tick hold 11. -/
theorem getQuestsToStart_shared_actor :
    getQuestsToStart
      { quests := [{ name := "Foraging", contractAddress := "0xF", level := 1,
                     professionHeroes := [11] },
                   { name := "Fishing", contractAddress := "0xA", level := 1,
                     professionHeroes := [11] }],
        maxQuestGroupSize := 2, consumeStaminaVialIfMinStamina := 15, questAttempts := 3 }
      (fun _ _ => some 20) (fun _ _ => succeedingCall) [] =
      ([], .returned [⟨"Foraging", "0xF", true, [11], 1⟩, ⟨"Fishing", "0xA", true, [11], 1⟩]) := by
  decide

end QuestRunner
